import Mathlib

/-!
Verification of the meeting-summary extraction, scoring and orchestration core
of the `meeting_mcp` package.  Python source functions are shallowly embedded
as executable Lean definitions over `List Char` / `String`, with external
effects (model inference, Jira and HTTP clients, `json.loads`) passed in as
explicit outcome parameters.
-/

namespace MeetingMcp

/-! ## Python string primitives -/

/-- Python whitespace characters, as recognised by `str.strip()`, `str.split()`
and the regex class `\s` (space, tab, newline, carriage return, vertical tab,
form feed). -/
def isPySpace (c : Char) : Bool :=
  c = ' ' || c = '\t' || c = '\n' || c = '\r' || c = Char.ofNat 11 || c = Char.ofNat 12

/-- ASCII lowercasing of one character (`str.lower` restricted to ASCII input). -/
def pyLowerChar (c : Char) : Char :=
  if 'A' ≤ c && c ≤ 'Z' then Char.ofNat (c.toNat + 32) else c

/-- `str.lower()` on ASCII text. -/
def pyLower (l : List Char) : List Char := l.map pyLowerChar

/-- `str.lstrip()`. -/
def pyLstrip (l : List Char) : List Char := l.dropWhile isPySpace

/-- `str.rstrip()`. -/
def pyRstrip (l : List Char) : List Char := (l.reverse.dropWhile isPySpace).reverse

/-- `str.strip()`. -/
def pyStrip (l : List Char) : List Char := pyRstrip (pyLstrip l)

/-- Does `hay` start with `needle`? -/
def startsWithChars : List Char → List Char → Bool
  | _, [] => true
  | [], _ :: _ => false
  | c :: cs, d :: ds => c = d && startsWithChars cs ds

/-- Substring containment (Python `needle in hay`). -/
def containsSub (hay needle : List Char) : Bool :=
  hay.tails.any (fun t => startsWithChars t needle)

/-- Accumulator for `splitWords`. -/
def splitWordsAux : List Char → List Char → List (List Char)
  | [], acc => if acc.isEmpty then [] else [acc.reverse]
  | c :: cs, acc =>
    if isPySpace c then
      if acc.isEmpty then splitWordsAux cs [] else acc.reverse :: splitWordsAux cs []
    else splitWordsAux cs (c :: acc)

/-- Python `str.split()` with no argument: split on whitespace runs, dropping
empty pieces. -/
def splitWords (l : List Char) : List (List Char) := splitWordsAux l []

/-! ## C1 — resilient JSON recovery (`extract_last_json`,
`src/meeting_mcp/agents/mistral_summarizer.py` lines 94-124) -/

/-- State of the single-pass brace scan: the running brace counter (a Python
int, so it may go negative), the pending start offset, and the completed
(start, end-exclusive) pairs in the order they were appended. -/
structure BraceState where
  braceCount : Int
  start : Option Nat
  pairs : List (Nat × Nat)
deriving Repr, DecidableEq

/-- One iteration of the `for i, c in enumerate(text)` loop of
`extract_last_json`: `{` records a start when the counter is 0 and increments;
`}` decrements and, when the counter returns to 0 with a pending start,
appends the completed pair `(start, i+1)`. -/
def braceStep (s : BraceState) (i : Nat) (c : Char) : BraceState :=
  if c = '{' then
    { braceCount := s.braceCount + 1
      start := if s.braceCount = 0 then some i else s.start
      pairs := s.pairs }
  else if c = '}' then
    let bc := s.braceCount - 1
    match s.start with
    | some st =>
      if bc = 0 then { braceCount := bc, start := none, pairs := s.pairs ++ [(st, i + 1)] }
      else { braceCount := bc, start := s.start, pairs := s.pairs }
    | none => { braceCount := bc, start := none, pairs := s.pairs }
  else s

/-- The scan loop of `extract_last_json`, indexing from `i`. -/
def braceScanAux : List Char → Nat → BraceState → BraceState
  | [], _, s => s
  | c :: cs, i, s => braceScanAux cs (i + 1) (braceStep s i c)

/-- The full scan of `extract_last_json` starting from the initial state. -/
def braceScan (l : List Char) : BraceState :=
  braceScanAux l 0 { braceCount := 0, start := none, pairs := [] }

/-- Python slice `text[s:e]` for `0 ≤ s ≤ e ≤ len text`. -/
def sliceChars (l : List Char) (s e : Nat) : List Char := (l.drop s).take (e - s)

/-- `text.count(c)` (single-character count). -/
def countChar (c : Char) (l : List Char) : Nat := l.countP (fun d => d = c)

/-- `fixed.replace("'", '"')`. -/
def replaceSingleQuotes (l : List Char) : List Char :=
  l.map (fun c => if c = Char.ofNat 39 then '"' else c)

/-- The whitespace class `[ \t\r\n]` of the trailing-comma regex. -/
def isCommaWs (c : Char) : Bool := c = ' ' || c = '\t' || c = '\r' || c = '\n'

theorem length_dropWhile_le (p : Char → Bool) (l : List Char) :
    (l.dropWhile p).length ≤ l.length := by
  induction l with
  | nil => simp [List.dropWhile]
  | cons c cs ih =>
    by_cases h : p c
    · simp [List.dropWhile, h]; omega
    · simp [List.dropWhile, h]

/-- Fuel-indexed worker for `stripTrailingCommas`; the fuel (initially the
text length, which bounds the number of scan steps) only makes the recursion
structural and never runs out. -/
def stripTCFuel : Nat → List Char → List Char
  | 0, l => l
  | _ + 1, [] => []
  | fuel + 1, c :: rest =>
    if c = ',' then
      let ws := rest.takeWhile isCommaWs
      let rest2 := rest.dropWhile isCommaWs
      match rest2 with
      | d :: rest3 =>
        if d = '}' || d = ']' then ws ++ d :: stripTCFuel fuel rest3
        else c :: stripTCFuel fuel rest
      | [] => c :: stripTCFuel fuel rest
    else c :: stripTCFuel fuel rest

/-- `re.sub(r',([ \t\r\n]*[}\]])', r'\1', fixed)`: scanning left to right,
each comma followed by optional `[ \t\r\n]` whitespace and then `}` or `]`
is dropped (the whitespace and the bracket are kept); scanning resumes after
the bracket. -/
def stripTrailingCommas (l : List Char) : List Char := stripTCFuel l.length l

/-- The two repair passes applied by `extract_last_json` to the captured
candidate: replace all single quotes by double quotes only when the candidate
holds strictly more single than double quotes, then always strip trailing
commas before a closing `}` or `]`. -/
def repairCandidate (l : List Char) : List Char :=
  let fixed := if countChar (Char.ofNat 39) l > countChar '"' l then replaceSingleQuotes l else l
  stripTrailingCommas fixed

/-- `extract_last_json(text)`: run the brace scan; if at least one complete
top-level pair was recorded, slice out the last one, repair it and return it,
otherwise return `None`. -/
def extract_last_json (text : List Char) : Option (List Char) :=
  match (braceScan text).pairs.getLast? with
  | some (s, e) => some (repairCandidate (sliceChars text s e))
  | none => none

/-- Modelled from the claim wording (spec §4.2(a)): scan once with a
brace-depth counter, recording the start offset at every 0→1 transition and
emitting a completed block whenever the depth returns to 0 with a pending
start.  Written as a direct structural recursion producing the block list. -/
def jsonBlocksAux : List Char → Nat → Int → Option Nat → List (Nat × Nat)
  | [], _, _, _ => []
  | c :: cs, i, depth, st =>
    if c = '{' then
      jsonBlocksAux cs (i + 1) (depth + 1) (if depth = 0 then some i else st)
    else if c = '}' then
      match st with
      | some s0 =>
        if depth - 1 = 0 then (s0, i + 1) :: jsonBlocksAux cs (i + 1) 0 none
        else jsonBlocksAux cs (i + 1) (depth - 1) st
      | none => jsonBlocksAux cs (i + 1) (depth - 1) none
    else jsonBlocksAux cs (i + 1) depth st

/-- The complete top-level `{...}` blocks of a text, in order of completion. -/
def jsonBlocks (l : List Char) : List (Nat × Nat) := jsonBlocksAux l 0 0 none

theorem braceScanAux_pairs (cs : List Char) (i : Nat) (bc : Int) (st : Option Nat)
    (acc : List (Nat × Nat)) :
    (braceScanAux cs i ⟨bc, st, acc⟩).pairs = acc ++ jsonBlocksAux cs i bc st := by
  induction cs generalizing i bc st acc with
  | nil => simp [braceScanAux, jsonBlocksAux]
  | cons c cs ih =>
    by_cases hb : c = '{'
    · simp [braceScanAux, braceStep, jsonBlocksAux, hb, ih]
    · by_cases hc : c = '}'
      · cases st with
        | some s0 =>
          by_cases hz : bc - 1 = 0
          · simp [braceScanAux, braceStep, jsonBlocksAux, hb, hc, hz, ih]
          · simp [braceScanAux, braceStep, jsonBlocksAux, hb, hc, hz, ih]
        | none =>
          simp [braceScanAux, braceStep, jsonBlocksAux, hb, hc, ih]
      · simp [braceScanAux, braceStep, jsonBlocksAux, hb, hc, ih]

theorem braceScan_pairs (l : List Char) : (braceScan l).pairs = jsonBlocks l := by
  simpa using braceScanAux_pairs l 0 0 none []

/-- Claim C1: resilient JSON recovery.  For every input text the extraction
engine returns exactly the last complete top-level `{...}` block found by the
one-pass brace-depth scan, repaired by the conditional single-quote
replacement and the unconditional trailing-comma strip; when the scan finds no
complete top-level block the engine yields no object.  Concretely, a text
containing the object `{"summary":["a"]}` followed by `{"summary":["b"]}`
yields `{"summary":["b"]}`, and `{'summary': ['x',]}` is repaired to exactly
the text `{"summary": ["x"]}` (which parses to the object with key `summary`
and value `["x"]`). -/
theorem c1_extract_last_json :
    (∀ t : List Char,
      extract_last_json t =
        (jsonBlocks t).getLast?.map (fun p => repairCandidate (sliceChars t p.1 p.2))) ∧
    (∀ t : List Char, jsonBlocks t = [] → extract_last_json t = none) ∧
    extract_last_json ("\x7b\"summary\":[\"a\"]\x7d \x7b\"summary\":[\"b\"]\x7d".toList) =
      some ("\x7b\"summary\":[\"b\"]\x7d".toList) ∧
    extract_last_json ("\x7b'summary': ['x',]\x7d".toList) =
      some ("\x7b\"summary\": [\"x\"]\x7d".toList) := by
  have hmain : ∀ t : List Char,
      extract_last_json t =
        (jsonBlocks t).getLast?.map (fun p => repairCandidate (sliceChars t p.1 p.2)) := by
    intro t
    rw [extract_last_json, braceScan_pairs]
    cases h : (jsonBlocks t).getLast? with
    | none => simp
    | some p => cases p; simp
  refine ⟨hmain, ?_, ?_, ?_⟩
  · intro t h
    rw [hmain t, h]
    simp
  · decide
  · decide

/-- Witness for the conditional part of C1: a text made of an unmatched `}`
followed by `{"a": 1}` has no complete top-level block under the scan (the
counter never returns to 0 from 1), so the engine yields no object. -/
theorem c1_extract_last_json_witness :
    jsonBlocks ("\x7d \x7b\"a\": 1\x7d".toList) = [] ∧
      extract_last_json ("\x7d \x7b\"a\": 1\x7d".toList) = none :=
  ⟨by decide, c1_extract_last_json.2.1 _ (by decide)⟩

/-! ## Python values

Loosely-typed payload values passed between the agents (JSON-like Python
objects: strings, ints, bools, `None`, lists, dicts). -/

inductive PyVal where
  | str (s : String)
  | int (n : Int)
  | bool (b : Bool)
  | null
  | list (l : List PyVal)
  | dict (kvs : List (String × PyVal))

/-- Python truthiness (`bool(v)`) of a payload value. -/
def pyTruthy : PyVal → Bool
  | .str s => s ≠ ""
  | .int n => n ≠ 0
  | .bool b => b
  | .null => false
  | .list l => !l.isEmpty
  | .dict kvs => !kvs.isEmpty

/-- `a or b` on payload values. -/
def pyOr (a b : PyVal) : PyVal := if pyTruthy a then a else b

/-- `d.get(k)` (`None` when the key is absent). -/
def pyGet (kvs : List (String × PyVal)) (k : String) : PyVal :=
  match kvs.find? (fun kv => kv.1 = k) with
  | some kv => kv.2
  | none => .null

/-- `d.get(k, dflt)`. -/
def pyGetD (kvs : List (String × PyVal)) (k : String) (dflt : PyVal) : PyVal :=
  match kvs.find? (fun kv => kv.1 = k) with
  | some kv => kv.2
  | none => dflt

/-- Lexicographic order on character lists (Python string comparison by code
points), used by `sort_keys=True`. -/
def lexLt : List Char → List Char → Bool
  | [], [] => false
  | [], _ :: _ => true
  | _ :: _, [] => false
  | c :: cs, d :: ds => c < d || (c = d && lexLt cs ds)

/-- Stable insertion of a key/rendered-value pair into a key-sorted list. -/
def insertPair (kv : String × List Char) :
    List (String × List Char) → List (String × List Char)
  | [] => [kv]
  | kv2 :: rest =>
    if lexLt kv.1.toList kv2.1.toList then kv :: kv2 :: rest
    else kv2 :: insertPair kv rest

/-- Key-sorting of rendered dict pairs (`sort_keys=True`); sorting the pairs
before rendering the values or after renders the same text, since each value
is rendered independently. -/
def sortPairs : List (String × List Char) → List (String × List Char)
  | [] => []
  | kv :: rest => insertPair kv (sortPairs rest)

/-- JSON string escaping of one character (the escapes `json.dumps` emits for
the characters appearing in this development). -/
def jsonEscapeChar (c : Char) : List Char :=
  if c = '"' then ['\\', '"']
  else if c = '\\' then ['\\', '\\']
  else if c = '\n' then ['\\', 'n']
  else if c = '\t' then ['\\', 't']
  else if c = '\r' then ['\\', 'r']
  else [c]

/-- A double-quoted JSON string literal. -/
def jsonQuote (s : String) : List Char :=
  '"' :: (s.toList.flatMap jsonEscapeChar) ++ ['"']

mutual

/-- `json.dumps(v, sort_keys=True)`: canonical serialization with sorted
field names at every level. -/
def jsonDumps : PyVal → List Char
  | .str s => jsonQuote s
  | .int n => (toString n).toList
  | .bool b => (if b then "true" else "false").toList
  | .null => "null".toList
  | .list l => '[' :: (List.intercalate [',', ' '] (jsonDumpsList l)) ++ [']']
  | .dict kvs =>
    '{' :: (List.intercalate [',', ' ']
      ((sortPairs (jsonDumpsPairs kvs)).map
        (fun kv => jsonQuote kv.1 ++ ':' :: ' ' :: kv.2))) ++ ['}']

/-- Renders each element of a list value. -/
def jsonDumpsList : List PyVal → List (List Char)
  | [] => []
  | v :: rest => jsonDumps v :: jsonDumpsList rest

/-- Renders each value of a dict, keeping the keys. -/
def jsonDumpsPairs : List (String × PyVal) → List (String × List Char)
  | [] => []
  | (k, v) :: rest => (k, jsonDumps v) :: jsonDumpsPairs rest

end

mutual

/-- Python `repr(v)` (insertion order for dicts, single-quoted strings,
ASCII content without embedded quotes assumed for strings). -/
def pyRepr : PyVal → List Char
  | .str s => Char.ofNat 39 :: s.toList ++ [Char.ofNat 39]
  | .int n => (toString n).toList
  | .bool b => (if b then "True" else "False").toList
  | .null => "None".toList
  | .list l => '[' :: (List.intercalate [',', ' '] (pyReprList l)) ++ [']']
  | .dict kvs => '{' :: (List.intercalate [',', ' '] (pyReprPairs kvs)) ++ ['}']

/-- Renders each element of a list value with `repr`. -/
def pyReprList : List PyVal → List (List Char)
  | [] => []
  | v :: rest => pyRepr v :: pyReprList rest

/-- Renders each `'key': value` pair of a dict with `repr`. -/
def pyReprPairs : List (String × PyVal) → List (List Char)
  | [] => []
  | (k, v) :: rest =>
    (Char.ofNat 39 :: k.toList ++ [Char.ofNat 39] ++ ':' :: ' ' :: pyRepr v) ::
      pyReprPairs rest

end

/-- Python `str(v)`: the string itself for strings, `repr` otherwise. -/
def pyStr : PyVal → List Char
  | .str s => s.toList
  | v => pyRepr v

/-! ## C5 — deduplication (`dedup_list`,
`src/meeting_mcp/agents/mistral_summarizer.py` lines 211-219) -/

/-- The canonical key of `dedup_list`: the sorted-key JSON serialization for
dicts, and `str(item).strip().lower()` otherwise. -/
def pyKey : PyVal → List Char
  | .dict kvs => jsonDumps (.dict kvs)
  | v => pyLower (pyStrip (pyStr v))

/-- The loop of `dedup_list`, carrying the `seen` key set. -/
def dedupAux (seen : List (List Char)) : List PyVal → List PyVal
  | [] => []
  | item :: rest =>
    if pyKey item ∈ seen then dedupAux seen rest
    else item :: dedupAux (pyKey item :: seen) rest

/-- `dedup_list(items)`: keep an item only when its canonical key has not been
seen before. -/
def dedup_list (items : List PyVal) : List PyVal := dedupAux [] items

theorem dedupAux_sublist (seen : List (List Char)) (l : List PyVal) :
    (dedupAux seen l).Sublist l := by
  induction l generalizing seen with
  | nil => simp [dedupAux]
  | cons x rest ih =>
    by_cases h : pyKey x ∈ seen
    · simp only [dedupAux, if_pos h]
      exact (ih seen).cons x
    · simp only [dedupAux, if_neg h]
      exact (ih _).cons₂ x

theorem dedupAux_not_seen (seen : List (List Char)) (l : List PyVal) :
    ∀ y ∈ dedupAux seen l, pyKey y ∉ seen := by
  induction l generalizing seen with
  | nil => simp [dedupAux]
  | cons x rest ih =>
    by_cases h : pyKey x ∈ seen
    · simpa only [dedupAux, if_pos h] using ih seen
    · simp only [dedupAux, if_neg h]
      intro y hy
      rcases List.mem_cons.mp hy with rfl | hy2
      · exact h
      · have := ih (pyKey x :: seen) y hy2
        exact fun hs => this (List.mem_cons_of_mem _ hs)

theorem dedupAux_nodup_keys (seen : List (List Char)) (l : List PyVal) :
    ((dedupAux seen l).map pyKey).Nodup := by
  induction l generalizing seen with
  | nil => simp [dedupAux]
  | cons x rest ih =>
    by_cases h : pyKey x ∈ seen
    · simpa only [dedupAux, if_pos h] using ih seen
    · simp only [dedupAux, if_neg h, List.map_cons, List.nodup_cons]
      constructor
      · intro hmem
        rcases List.mem_map.mp hmem with ⟨y, hy, hk⟩
        exact dedupAux_not_seen _ _ y hy (hk ▸ List.mem_cons_self _ _)
      · exact ih _

theorem dedupAux_covers (seen : List (List Char)) (l : List PyVal) :
    ∀ x ∈ l, pyKey x ∈ seen ∨ ∃ y ∈ dedupAux seen l, pyKey y = pyKey x := by
  induction l generalizing seen with
  | nil => simp
  | cons x0 rest ih =>
    intro x hx
    by_cases h : pyKey x0 ∈ seen
    · simp only [dedupAux, if_pos h]
      rcases List.mem_cons.mp hx with rfl | hx2
      · exact Or.inl h
      · exact ih seen x hx2
    · simp only [dedupAux, if_neg h]
      rcases List.mem_cons.mp hx with rfl | hx2
      · exact Or.inr ⟨_, List.mem_cons_self _ _, rfl⟩
      · rcases ih (pyKey x0 :: seen) x hx2 with hs | ⟨y, hy, hk⟩
        · rcases List.mem_cons.mp hs with heq | hs2
          · exact Or.inr ⟨x0, List.mem_cons_self _ _, heq.symm⟩
          · exact Or.inl hs2
        · exact Or.inr ⟨y, List.mem_cons_of_mem _ hy, hk⟩

theorem dedupAux_first (seen : List (List Char)) (l : List PyVal) :
    ∀ y ∈ dedupAux seen l, l.find? (fun z => pyKey z == pyKey y) = some y := by
  induction l generalizing seen with
  | nil => simp [dedupAux]
  | cons x rest ih =>
    intro y hy
    by_cases h : pyKey x ∈ seen
    · simp only [dedupAux, if_pos h] at hy
      have hne : pyKey x ≠ pyKey y := by
        intro hk
        exact dedupAux_not_seen seen rest y hy (hk ▸ h)
      rw [List.find?_cons_of_neg _ (by simpa using hne)]
      exact ih seen y hy
    · simp only [dedupAux, if_neg h] at hy
      rcases List.mem_cons.mp hy with rfl | hy2
      · rw [List.find?_cons_of_pos _ (by simp)]
      · have hmem := dedupAux_not_seen (pyKey x :: seen) rest y hy2
        have hne : pyKey x ≠ pyKey y := by
          intro hk
          exact hmem (hk ▸ List.mem_cons_self _ _)
        rw [List.find?_cons_of_neg _ (by simpa using hne)]
        exact ih _ y hy2

theorem dedupAux_of_nodup (seen : List (List Char)) (l : List PyVal)
    (h1 : (l.map pyKey).Nodup) (h2 : ∀ x ∈ l, pyKey x ∉ seen) :
    dedupAux seen l = l := by
  induction l generalizing seen with
  | nil => simp [dedupAux]
  | cons x rest ih =>
    have hx : pyKey x ∉ seen := h2 x (List.mem_cons_self _ _)
    simp only [dedupAux, if_neg hx]
    congr 1
    refine ih _ (by simpa using h1.of_cons) ?_
    intro z hz hmem
    rcases List.mem_cons.mp hmem with heq | hs
    · have h1s := h1
      simp only [List.map_cons, List.nodup_cons] at h1s
      exact h1s.1 (heq ▸ List.mem_map_of_mem pyKey hz)
    · exact h2 z (List.mem_cons_of_mem _ hz) hs

/-- Claim C5: deduplication.  `dedup_list` returns a sublist of its input
(order of first appearance preserved) whose canonical keys — sorted-field
JSON serialization for dicts, lowercased stripped text otherwise — are
pairwise distinct; every input item has a kept representative with its key,
and every kept item is exactly the first input item bearing its key.
Moreover `dedup_list` is idempotent: on an already-deduplicated list it
returns the same list in the same order. -/
theorem c5_dedup :
    (∀ l : List PyVal, (dedup_list l).Sublist l) ∧
    (∀ l : List PyVal, ((dedup_list l).map pyKey).Nodup) ∧
    (∀ l : List PyVal, ∀ x ∈ l, ∃ y ∈ dedup_list l, pyKey y = pyKey x) ∧
    (∀ l : List PyVal, ∀ y ∈ dedup_list l,
      l.find? (fun z => pyKey z == pyKey y) = some y) ∧
    (∀ l : List PyVal, dedup_list (dedup_list l) = dedup_list l) := by
  refine ⟨fun l => dedupAux_sublist [] l,
          fun l => dedupAux_nodup_keys [] l,
          fun l x hx => ?_,
          fun l => dedupAux_first [] l,
          fun l => dedupAux_of_nodup [] (dedup_list l) (dedupAux_nodup_keys [] l) (by simp)⟩
  rcases dedupAux_covers [] l x hx with hs | hy
  · simp at hs
  · exact hy

/-- Witness for C5 at a concrete list: `["A", " a ", "b"]` dedups to
`["A", "b"]` (the keys of `"A"` and `" a "` coincide after
stripping/lowercasing), the first occurrence `"A"` is the kept
representative, and the result is a fixed point of `dedup_list`. -/
theorem c5_dedup_witness :
    (∃ y ∈ dedup_list [PyVal.str "A", PyVal.str " a ", PyVal.str "b"],
      pyKey y = pyKey (PyVal.str " a ")) ∧
    [PyVal.str "A", PyVal.str " a ", PyVal.str "b"].find?
        (fun z => pyKey z == pyKey (PyVal.str "A")) = some (PyVal.str "A") ∧
    dedup_list (dedup_list [PyVal.str "A", PyVal.str " a ", PyVal.str "b"]) =
      dedup_list [PyVal.str "A", PyVal.str " a ", PyVal.str "b"] := by
  refine ⟨c5_dedup.2.2.1 _ (PyVal.str " a ")
      (List.mem_cons_of_mem _ (List.mem_cons_self _ _)), ?_, c5_dedup.2.2.2.2 _⟩
  have hmem : PyVal.str "A" ∈
      dedup_list [PyVal.str "A", PyVal.str " a ", PyVal.str "b"] := by
    have h9 : dedup_list [PyVal.str "A", PyVal.str " a ", PyVal.str "b"] =
        [PyVal.str "A", PyVal.str "b"] := rfl
    rw [h9]
    exact List.mem_cons_self _ _
  exact c5_dedup.2.2.2.1 [PyVal.str "A", PyVal.str " a ", PyVal.str "b"]
    (PyVal.str "A") hmem

/-! ## C6 — placeholder filtering (`is_valid_summary_item` /
`is_valid_action_item`, `src/meeting_mcp/agents/mistral_summarizer.py`
lines 154-185) -/

/-- The tuple of rejected trimmed/lowercased strings in
`is_valid_summary_item` (note that it contains the empty string). -/
def placeholderTokens : List (List Char) :=
  ["point 1", "point 2", "point1", "point2", "", "-",
   "<summary bullet 1>", "<summary bullet 2>"].map String.toList

/-- `is_valid_summary_item(item)`: accept only non-empty strings whose
trimmed lowercased form is not a placeholder token, does not start with
`point ` or `<summary`, and does not contain both `<` and `>`. -/
def is_valid_summary_item : PyVal → Bool
  | .str s =>
    if s = "" then false
    else
      if placeholderTokens.contains (pyLower (pyStrip s.toList)) then false
      else if startsWithChars (pyLower (pyStrip s.toList)) "point ".toList ||
          startsWithChars (pyLower (pyStrip s.toList)) "<summary".toList then false
      else if containsSub (pyLower (pyStrip s.toList)) ['<'] &&
          containsSub (pyLower (pyStrip s.toList)) ['>'] then false
      else true
  | _ => false

/-- The per-value rejection test of `is_valid_action_item`: a string value
that strips to empty or whose stripped form begins with `<`. -/
def badStrValue : PyVal → Bool
  | .str s => (pyStrip s.toList).isEmpty || startsWithChars (pyStrip s.toList) ['<']
  | _ => false

/-- `is_valid_action_item(item)`: dicts are rejected when falsy, when any
string value is a placeholder (`badStrValue`), or when no value is truthy;
strings are rejected when falsy, stripping to empty, or starting with `<`;
anything else is rejected. -/
def is_valid_action_item : PyVal → Bool
  | .dict kvs =>
    if kvs.isEmpty then false
    else if kvs.any (fun kv => badStrValue kv.2) then false
    else kvs.any (fun kv => pyTruthy kv.2)
  | .str s =>
    if s = "" then false
    else if (pyStrip s.toList).isEmpty || startsWithChars (pyStrip s.toList) ['<'] then false
    else true
  | _ => false

/-- Modelled from the claim wording of C6: a string item is rejected iff it
is empty, equals (case-insensitively, after trimming) one of the listed
placeholder tokens, starts with `point ` or `<summary`, or contains both `<`
and `>`.  The token list here is exactly the one the claim enumerates, which
does not include the empty string. -/
def claimStringRejected (s : String) : Bool :=
  s = "" ||
  (["point 1", "point 2", "point1", "point2", "-",
    "<summary bullet 1>", "<summary bullet 2>"].map String.toList).contains
      (pyLower (pyStrip s.toList)) ||
  startsWithChars (pyLower (pyStrip s.toList)) "point ".toList ||
  startsWithChars (pyLower (pyStrip s.toList)) "<summary".toList ||
  (containsSub (pyLower (pyStrip s.toList)) ['<'] &&
   containsSub (pyLower (pyStrip s.toList)) ['>'])

/-- Counterexample to claim C6 as stated: the whitespace-only string `" "`
is rejected by the code (its trimmed lowercased form is the empty string,
which is in the code's placeholder tuple), yet it satisfies none of the
rejection conditions enumerated by the claim, whose token list has no empty
string. -/
theorem c6_counterexample :
    is_valid_summary_item (PyVal.str " ") = false ∧
      claimStringRejected " " = false := by
  constructor <;> decide

/-- The rejection condition actually implemented for string items: the
trimmed lowercased form is empty or a placeholder token, or starts with
`point ` or `<summary`, or contains both `<` and `>`. -/
def amendedStringRejected (s : String) : Bool :=
  placeholderTokens.contains (pyLower (pyStrip s.toList)) ||
  startsWithChars (pyLower (pyStrip s.toList)) "point ".toList ||
  startsWithChars (pyLower (pyStrip s.toList)) "<summary".toList ||
  (containsSub (pyLower (pyStrip s.toList)) ['<'] &&
   containsSub (pyLower (pyStrip s.toList)) ['>'])

theorem pyStrip_nil : pyStrip ("".toList) = [] := rfl

/-- Claim C6 (amended): a string item is rejected iff its trimmed lowercased
form is empty or one of the placeholder tokens, or starts with `point ` or
`<summary`, or contains both `<` and `>` (so whitespace-only strings are
rejected); a structured (dict) action item is rejected iff some field value
is a string that strips to empty or whose stripped form begins with `<`, or
no field value is truthy; non-string non-dict items are always rejected.
Concretely `{"summary": "<task>", "owner": ""}` is filtered out and
`{"summary": "Fix login bug", "owner": "Bob"}` is kept. -/
theorem c6_amended :
    (∀ s : String, is_valid_summary_item (.str s) = !(amendedStringRejected s)) ∧
    (∀ kvs : List (String × PyVal), is_valid_action_item (.dict kvs) = false ↔
        ((∃ kv ∈ kvs, badStrValue kv.2 = true) ∨ ∀ kv ∈ kvs, pyTruthy kv.2 = false)) ∧
    is_valid_action_item
      (.dict [("summary", .str "<task>"), ("owner", .str "")]) = false ∧
    is_valid_action_item
      (.dict [("summary", .str "Fix login bug"), ("owner", .str "Bob")]) = true := by
  refine ⟨?_, ?_, by decide, by decide⟩
  · intro s
    by_cases hs : s = ""
    · subst hs
      decide
    · simp only [is_valid_summary_item, if_neg hs, amendedStringRejected]
      cases hb1 : placeholderTokens.contains (pyLower (pyStrip s.toList)) <;>
        cases hb2 : startsWithChars (pyLower (pyStrip s.toList)) "point ".toList <;>
        cases hb3 : startsWithChars (pyLower (pyStrip s.toList)) "<summary".toList <;>
        cases hb4 : containsSub (pyLower (pyStrip s.toList)) ['<'] <;>
        cases hb5 : containsSub (pyLower (pyStrip s.toList)) ['>'] <;>
        simp [hb1, hb2, hb3, hb4, hb5]
  · intro kvs
    by_cases he : kvs.isEmpty
    · rcases List.isEmpty_iff.mp he with rfl
      simp [is_valid_action_item]
    · simp only [is_valid_action_item, if_neg he]
      have hex : (∃ kv ∈ kvs, badStrValue kv.2 = true) ↔
          kvs.any (fun kv => badStrValue kv.2) = true := List.any_eq_true.symm
      have hall : (∀ kv ∈ kvs, pyTruthy kv.2 = false) ↔
          kvs.any (fun kv => pyTruthy kv.2) = false := by
        rw [List.any_eq_false]
        constructor
        · intro h kv hkv
          simp [h kv hkv]
        · intro h kv hkv
          simpa using h kv hkv
      rw [hex, hall]
      cases hb : kvs.any (fun kv => badStrValue kv.2) <;>
        cases ht : kvs.any (fun kv => pyTruthy kv.2) <;> simp

/-- Witness applying the amended C6 characterisations at concrete items:
`"point 3"` is rejected and satisfies the amended string condition, and the
dict `{"summary": "<task>", "owner": ""}` satisfies the dict rejection
condition. -/
theorem c6_amended_witness :
    is_valid_summary_item (PyVal.str "point 3") = !(amendedStringRejected "point 3") ∧
      ((∃ kv ∈ [("summary", PyVal.str "<task>"), ("owner", PyVal.str "")],
        badStrValue kv.2 = true) ∨
       ∀ kv ∈ [("summary", PyVal.str "<task>"), ("owner", PyVal.str "")],
        pyTruthy kv.2 = false) :=
  ⟨c6_amended.1 "point 3", (c6_amended.2.1 _).mp (by decide)⟩

/-! ## C3/C4 — heuristic task extraction
(`src/meeting_mcp/tools/nlp_task_extraction.py`)

The regular expressions of `_find_owner`, `_find_due`,
`_score_action_sentence` and `extract_tasks_structured` are embedded as
deterministic matchers over `List Char`.  All character classes are the ASCII
ones the patterns denote; greedy runs are maximal, which is faithful because
in every pattern the run's class is disjoint from the next required
character, and the bounded `\d{m,n}` counters and optional groups are tried
in the engine's preference order. -/

def isAsciiAlpha (c : Char) : Bool := ('a' ≤ c && c ≤ 'z') || ('A' ≤ c && c ≤ 'Z')

def isAsciiUpper (c : Char) : Bool := 'A' ≤ c && c ≤ 'Z'

def isDigitCh (c : Char) : Bool := '0' ≤ c && c ≤ '9'

/-- Python regex `\w` (ASCII): letters, digits, underscore. -/
def isWordChar (c : Char) : Bool := isAsciiAlpha c || isDigitCh c || c = '_'

/-- The class `[a-zA-Z\-]` used inside name groups. -/
def isNameChar (c : Char) : Bool := isAsciiAlpha c || c = '-'

/-- Word boundary `\b` when the previous character is a word character:
holds at end of text or before a non-word character. -/
def atBoundary : List Char → Bool
  | [] => true
  | c :: _ => !isWordChar c

/-- Case-insensitive literal prefix match (pattern given in lowercase),
returning the remaining text. -/
def prefixCI : List Char → List Char → Option (List Char)
  | [], cs => some cs
  | _ :: _, [] => none
  | p :: ps, c :: cs => if pyLowerChar c = p then prefixCI ps cs else none

/-- Case-sensitive literal prefix match returning the remaining text. -/
def prefixLit : List Char → List Char → Option (List Char)
  | [], cs => some cs
  | _ :: _, [] => none
  | p :: ps, c :: cs => if c = p then prefixLit ps cs else none

/-- `\s+`: at least one whitespace character, consumed maximally. -/
def ws1 (cs : List Char) : Option (List Char) :=
  match cs with
  | c :: _ => if isPySpace c then some (cs.dropWhile isPySpace) else none
  | [] => none

/-- The group `([A-Z][a-zA-Z\-]+)` under `re.I` (any letter, then a maximal
nonempty run of letters/hyphens), returning the captured name. -/
def nameCapture (cs : List Char) : Option (List Char) :=
  match cs with
  | a :: rest =>
    if isAsciiAlpha a then
      if (rest.takeWhile isNameChar).isEmpty then none
      else some (a :: rest.takeWhile isNameChar)
    else none
  | [] => none

/-- `re.search` driver: try a positional matcher at every start position,
leftmost first. -/
def firstMatch (f : List Char → Option (List Char)) : List Char → Option (List Char)
  | [] => f []
  | l@(_ :: rest) =>
    match f l with
    | some r => some r
    | none => firstMatch f rest

/-- Owner pattern 1: `owner:\s*([A-Z][a-zA-Z\-]+)` with `re.I`. -/
def ownerPat1 (cs : List Char) : Option (List Char) :=
  match prefixCI "owner:".toList cs with
  | some r1 => nameCapture (r1.dropWhile isPySpace)
  | none => none

/-- Owner pattern 2: `assign(?:ed)?(?: to)?\s+([A-Z][a-zA-Z\-]+)` with
`re.I`; the optional groups are tried present-first. -/
def ownerPat2 (cs : List Char) : Option (List Char) :=
  match prefixCI "assign".toList cs with
  | some r1 =>
    let tail2 := fun (r : List Char) =>
      match ws1 r with
      | some r2 => nameCapture r2
      | none => none
    let withTo := fun (r : List Char) =>
      match prefixCI " to".toList r with
      | some r3 =>
        match tail2 r3 with
        | some n => some n
        | none => tail2 r
      | none => tail2 r
    match prefixCI "ed".toList r1 with
    | some r2 =>
      match withTo r2 with
      | some n => some n
      | none => withTo r1
    | none => withTo r1
  | none => none

/-- Owner pattern 3: `([A-Z][a-zA-Z\-]+)\s*\(` (case-sensitive). -/
def ownerPat3 (cs : List Char) : Option (List Char) :=
  match cs with
  | a :: rest =>
    if isAsciiUpper a then
      if (rest.takeWhile isNameChar).isEmpty then none
      else
        match (rest.dropWhile isNameChar).dropWhile isPySpace with
        | '(' :: _ => some (a :: rest.takeWhile isNameChar)
        | _ => none
    else none
  | [] => none

/-- The modal alternation `(will|shall|should|can|must)\b`. -/
def modalAt (cs : List Char) : Bool :=
  ["will", "shall", "should", "can", "must"].any (fun w =>
    match prefixLit w.toList cs with
    | some r => atBoundary r
    | none => false)

/-- Owner pattern 4: `([A-Z][a-zA-Z\-]+)\s+(will|shall|should|can|must)\b`
(case-sensitive). -/
def ownerPat4 (cs : List Char) : Option (List Char) :=
  match cs with
  | a :: rest =>
    if isAsciiUpper a then
      if (rest.takeWhile isNameChar).isEmpty then none
      else
        match ws1 (rest.dropWhile isNameChar) with
        | some r3 => if modalAt r3 then some (a :: rest.takeWhile isNameChar) else none
        | none => none
    else none
  | [] => none

/-- The suffix `\s+to\s+\w+` of owner pattern 5. -/
def toAfter (cs : List Char) : Bool :=
  match prefixCI "to".toList cs with
  | some r5 =>
    match ws1 r5 with
    | some r6 =>
      match r6 with
      | c :: _ => isWordChar c
      | [] => false
    | none => false
  | none => false

/-- The part `\s*(?:,)?\s+to\s+\w+` after the name of owner pattern 5. -/
def afterName5 (r2 : List Char) : Bool :=
  (match r2.dropWhile isPySpace with
   | ',' :: r3t =>
     match ws1 r3t with
     | some r4 => toAfter r4
     | none => false
   | _ => false) ||
  (match ws1 r2 with
   | some r4 => toAfter r4
   | none => false)

/-- Owner pattern 5: `([A-Za-z][a-zA-Z\-]+)\s*(?:,)?\s+to\s+\w+` with
`re.I`. -/
def ownerPat5 (cs : List Char) : Option (List Char) :=
  match cs with
  | a :: rest =>
    if isAsciiAlpha a then
      if (rest.takeWhile isNameChar).isEmpty then none
      else if afterName5 (rest.dropWhile isNameChar) then
        some (a :: rest.takeWhile isNameChar)
      else none
    else none
  | [] => none

/-- `_find_owner(sentence)`: the five owner regexes searched in order; the
first pattern with a match anywhere wins and its leftmost capture is
returned. -/
def find_owner (s : List Char) : Option (List Char) :=
  match firstMatch ownerPat1 s with
  | some n => some n
  | none =>
    match firstMatch ownerPat2 s with
    | some n => some n
    | none =>
      match firstMatch ownerPat3 s with
      | some n => some n
      | none =>
        match firstMatch ownerPat4 s with
        | some n => some n
        | none => firstMatch ownerPat5 s

/-- The date alternative `[A-Z][a-z]+\b` under `re.I`: a maximal letter run
of length at least two followed by a word boundary. -/
def dueWordAlt (cs : List Char) : Option (List Char) :=
  match cs with
  | a :: rest =>
    if isAsciiAlpha a then
      if (rest.takeWhile isAsciiAlpha).isEmpty then none
      else if atBoundary (rest.dropWhile isAsciiAlpha) then
        some (a :: rest.takeWhile isAsciiAlpha)
      else none
    else none
  | [] => none

/-- Exactly `k` digits, returning them and the remaining text. -/
def exactDigits : Nat → List Char → Option (List Char × List Char)
  | 0, cs => some ([], cs)
  | k + 1, c :: rest =>
    if isDigitCh c then
      match exactDigits k rest with
      | some (ds, r) => some (c :: ds, r)
      | none => none
    else none
  | _ + 1, [] => none

/-- `\d{k}/`, returning the matched text (digits and slash) and the rest. -/
def digitsThenSlash (k : Nat) (cs : List Char) : Option (List Char × List Char) :=
  match exactDigits k cs with
  | some (ds, '/' :: r2) => some (ds ++ ['/'], r2)
  | _ => none

/-- The final `\d{2,4}` of the slash date: greedily up to four digits, at
least two, with nothing required afterwards. -/
def lastDigits24 (pre : List Char) (cs : List Char) : Option (List Char) :=
  if (cs.takeWhile isDigitCh).length ≥ 2 then
    some (pre ++ (cs.takeWhile isDigitCh).take 4)
  else none

/-- The date alternative `\d{1,2}/\d{1,2}/\d{2,4}` (two-digit counts tried
first, as the engine does). -/
def dueSlashAlt (cs : List Char) : Option (List Char) :=
  let second := fun (pre : List Char) (r : List Char) =>
    match digitsThenSlash 2 r with
    | some (m2, r2) =>
      match lastDigits24 (pre ++ m2) r2 with
      | some c => some c
      | none =>
        match digitsThenSlash 1 r with
        | some (m2b, r2b) => lastDigits24 (pre ++ m2b) r2b
        | none => none
    | none =>
      match digitsThenSlash 1 r with
      | some (m2b, r2b) => lastDigits24 (pre ++ m2b) r2b
      | none => none
  match digitsThenSlash 2 cs with
  | some (m1, r1) =>
    match second m1 r1 with
    | some c => some c
    | none =>
      match digitsThenSlash 1 cs with
      | some (m1b, r1b) => second m1b r1b
      | none => none
  | none =>
    match digitsThenSlash 1 cs with
    | some (m1b, r1b) => second m1b r1b
    | none => none

/-- The ISO date alternative `\d{4}-\d{2}-\d{2}`. -/
def dueIsoAlt (cs : List Char) : Option (List Char) :=
  match exactDigits 4 cs with
  | some (d1, '-' :: r1) =>
    match exactDigits 2 r1 with
    | some (d2, '-' :: r2) =>
      match exactDigits 2 r2 with
      | some (d3, _) => some (d1 ++ '-' :: d2 ++ '-' :: d3)
      | none => none
    | _ => none
  | _ => none

/-- Due pattern 1:
`by\s+([A-Z][a-z]+\b|\d{1,2}/\d{1,2}/\d{2,4}|\d{4}-\d{2}-\d{2})` with
`re.I`, alternatives tried in order. -/
def duePat1 (cs : List Char) : Option (List Char) :=
  match prefixCI "by".toList cs with
  | some r1 =>
    match ws1 r1 with
    | some r2 =>
      match dueWordAlt r2 with
      | some c => some c
      | none =>
        match dueSlashAlt r2 with
        | some c => some c
        | none => dueIsoAlt r2
    | none => none
  | none => none

/-- Due pattern 2: `due\s+(on\s+)?([A-Z][a-z]+\b|\d{1,2}/\d{1,2}/\d{2,4})`
with `re.I`; the optional `on\s+` group is tried present-first and group 2 is
returned. -/
def duePat2 (cs : List Char) : Option (List Char) :=
  match prefixCI "due".toList cs with
  | some r1 =>
    match ws1 r1 with
    | some r2 =>
      let alts := fun (r : List Char) =>
        match dueWordAlt r with
        | some c => some c
        | none => dueSlashAlt r
      match prefixCI "on".toList r2 with
      | some r3 =>
        match ws1 r3 with
        | some r4 =>
          match alts r4 with
          | some c => some c
          | none => alts r2
        | none => alts r2
      | none => alts r2
    | none => none
  | none => none

/-- `_find_due(sentence)`: the two due regexes searched in order. -/
def find_due (s : List Char) : Option (List Char) :=
  match firstMatch duePat1 s with
  | some n => some n
  | none => firstMatch duePat2 s

/-- The conditional/hypothetical marker list of `_score_action_sentence`
(the `"^if "` entry is an anchored match on the start of the sentence). -/
def conditionalMarkers : List String :=
  [" if ", "^if ", " might ", " could ", " maybe ", " may ", " if we ",
   "when we ", "when the "]

/-- The conditional filter of `_score_action_sentence` applied to the
stripped lowercased sentence: anchored markers use `re.match`, the others
substring containment. -/
def hasConditional (low : List Char) : Bool :=
  conditionalMarkers.any (fun cm =>
    if startsWithChars (pyStrip cm.toList) ['^'] then
      startsWithChars low (cm.toList.drop 1)
    else containsSub low cm.toList)

/-- The strong action verb vocabulary (substring matches). -/
def strongVerbs : List String :=
  ["assign", "implement", "create", "prepare", "fix", "verify", "test",
   "review", "document", "schedule", "deliver", "investigate", "follow up",
   "follow-up", "follow-up:"]

/-- The smaller imperative-verb set giving the `+0.1` boost. -/
def verbsBoost : List String :=
  ["prepare", "create", "assign", "investigate", "implement", "fix",
   "verify", "test", "review", "document", "schedule"]

/-- The imperative-start test: `re.match(r"^[A-Za-z]+\s", s)` followed by a
membership test of the lowercased first word in `verbsBoost`. -/
def impBoost (s : List Char) : Bool :=
  !(s.takeWhile isAsciiAlpha).isEmpty &&
  (match s.dropWhile isAsciiAlpha with
   | d :: _ => isPySpace d
   | [] => false) &&
  verbsBoost.any (fun v => pyLower (s.takeWhile isAsciiAlpha) = v.toList)

/-- Order-computable maximum on rationals (`max(a, b)` in Python). -/
def ratMax (a b : ℚ) : ℚ := if a ≤ b then b else a

/-- Order-computable minimum on rationals. -/
def ratMin (a b : ℚ) : ℚ := if a ≤ b then a else b

/-- `_score_action_sentence(sentence)`: 0 for empty or conditional
sentences; otherwise +0.4 for an owner match, +0.2 for a due match, +0.3 for
a strong verb, +0.1 for an imperative start, −0.2 (floored at 0) when longer
than 400 characters, capped at 1.  Scores are exact decimals, so rationals
model the Python floats faithfully on every reachable value. -/
def score_action_sentence (sentence : List Char) : ℚ :=
  if sentence.isEmpty then 0
  else if hasConditional (pyLower (pyStrip sentence)) then 0
  else
    let score1 : ℚ := if (find_owner (pyStrip sentence)).isSome then 4 / 10 else 0
    let score2 : ℚ := score1 + (if (find_due (pyStrip sentence)).isSome then 2 / 10 else 0)
    let score3 : ℚ := score2 +
      (if strongVerbs.any (fun v => containsSub (pyLower (pyStrip sentence)) v.toList)
       then 3 / 10 else 0)
    let score4 : ℚ := score3 + (if impBoost (pyStrip sentence) then 1 / 10 else 0)
    let score5 : ℚ :=
      if 400 < (pyStrip sentence).length then ratMax 0 (score4 - 2 / 10) else score4
    if 1 < score5 then 1 else score5

/-- Whitespace-run collapsing (`re.sub(r"\s+", " ", ·)`); the flag records
whether the previous character was inside a whitespace run. -/
def collapseWsAux : List Char → Bool → List Char
  | [], _ => []
  | c :: rest, inRun =>
    if isPySpace c then
      if inRun then collapseWsAux rest true
      else ' ' :: collapseWsAux rest true
    else c :: collapseWsAux rest false

/-- `re.sub(r"\s+", " ", text.strip())`. -/
def normalizeWs (text : List Char) : List Char := collapseWsAux (pyStrip text) false

/-- Split of the normalized text at `(?<=[\.\?!])\s+`: after normalization
every whitespace run is a single space, so a boundary is a space whose
predecessor is `.`, `?` or `!`.  The accumulator holds the current piece
reversed. -/
def splitSentencesAux : List Char → List Char → List (List Char)
  | [], acc => [acc.reverse]
  | c :: rest, acc =>
    if isPySpace c &&
        (match acc with
         | p :: _ => p = '.' || p = '?' || p = '!'
         | [] => false) then
      acc.reverse :: splitSentencesAux rest []
    else splitSentencesAux rest (c :: acc)

/-- `_split_sentences(text)`: normalize whitespace, split on sentence-ending
punctuation followed by whitespace, strip the pieces and drop empties. -/
def split_sentences (text : List Char) : List (List Char) :=
  if text.isEmpty then []
  else
    ((splitSentencesAux (normalizeWs text) []).map pyStrip).filter
      (fun p => !p.isEmpty)

/-- `re.sub(r"^[A-Za-z]+\s*\([^\)]*\):?\s*", "", sent)`: strip a leading
`Speaker (role):` prefix when present. -/
def stripSpeakerPrefix (sent : List Char) : List Char :=
  if (sent.takeWhile isAsciiAlpha).isEmpty then sent
  else
    match (sent.dropWhile isAsciiAlpha).dropWhile isPySpace with
    | '(' :: r2 =>
      match r2.dropWhile (fun c => !(c = ')')) with
      | ')' :: r3 =>
        (match r3 with
         | ':' :: r5 => r5
         | _ => r3).dropWhile isPySpace
      | _ => sent
    | _ => sent

/-- One structured task record: `{"title", "owner", "due", "raw",
"confidence"}`. -/
structure TaskRec where
  title : List Char
  owner : Option (List Char)
  due : Option (List Char)
  raw : List Char
  confidence : ℚ
deriving DecidableEq

/-- Python `round(q, 2)`; every reachable score is an exact multiple of
`1/10`, on which every rounding convention is the identity. -/
def pyRound2 (q : ℚ) : ℚ := (round (q * 100) : ℤ) / 100

/-- The record built for an emitted sentence: title with speaker prefix
stripped and truncated to 200 characters with a `...` marker, the extracted
owner and due date, the raw sentence and the rounded confidence. -/
def mkTask (sent : List Char) (score : ℚ) : TaskRec :=
  let title0 := pyStrip (stripSpeakerPrefix sent)
  { title := if 200 < title0.length then pyRstrip (title0.take 197) ++ "...".toList else title0
    owner := find_owner sent
    due := find_due sent
    raw := sent
    confidence := pyRound2 score }

/-- The sentence loop of `extract_tasks_structured`: append a task when the
score reaches the threshold, then stop as soon as the task list length
reaches `maxTasks` (the cap test runs after the append). -/
def extractLoop (maxTasks : Nat) (minC : ℚ) : List (List Char) → List TaskRec → List TaskRec
  | [], tasks => tasks
  | sent :: rest, tasks =>
    let tasks2 :=
      if minC ≤ score_action_sentence sent then
        tasks ++ [mkTask sent (score_action_sentence sent)]
      else tasks
    if maxTasks ≤ tasks2.length then tasks2 else extractLoop maxTasks minC rest tasks2

/-- `extract_tasks_structured(text, max_tasks=10, min_confidence=0.4)`. -/
def extract_tasks_structured (text : List Char) (maxTasks : Nat) (minC : ℚ) :
    List TaskRec :=
  if text.isEmpty then [] else extractLoop maxTasks minC (split_sentences text) []

/-- Modelled from the claim wording of C3: the score of a non-conditional
sentence is the sum of the owner/due/verb/imperative bonuses minus the
overlength penalty, clamped to `[0, 1]`. -/
def specScore (sentence : List Char) : ℚ :=
  ratMax 0 (ratMin 1
    ((if (find_owner (pyStrip sentence)).isSome then 4 / 10 else 0) +
     (if (find_due (pyStrip sentence)).isSome then 2 / 10 else 0) +
     (if strongVerbs.any (fun v => containsSub (pyLower (pyStrip sentence)) v.toList)
      then 3 / 10 else 0) +
     (if impBoost (pyStrip sentence) then 1 / 10 else 0) -
     (if 400 < (pyStrip sentence).length then 2 / 10 else 0)))

theorem score_eq_specScore (sentence : List Char)
    (h : hasConditional (pyLower (pyStrip sentence)) = false) :
    score_action_sentence sentence = specScore sentence := by
  by_cases hemp : sentence.isEmpty
  · rcases List.isEmpty_iff.mp hemp with rfl
    have e1 : (find_owner (pyStrip ([] : List Char))).isSome = false := by decide
    have e2 : (find_due (pyStrip ([] : List Char))).isSome = false := by decide
    have e3 : (strongVerbs.any fun v =>
        containsSub (pyLower (pyStrip ([] : List Char))) v.toList) = false := by decide
    have e4 : impBoost (pyStrip ([] : List Char)) = false := by decide
    have e5 : ¬ (400 < (pyStrip ([] : List Char)).length) := by decide
    simp only [score_action_sentence, specScore, e1, e2, e3, e4, e5, List.isEmpty_nil,
      if_true, if_false, Bool.false_eq_true, ratMax, ratMin]
    norm_num
  · simp only [score_action_sentence, specScore, hemp, h, Bool.false_eq_true, if_false]
    cases hb1 : (find_owner (pyStrip sentence)).isSome <;>
      cases hb2 : (find_due (pyStrip sentence)).isSome <;>
      cases hb3 : strongVerbs.any (fun v => containsSub (pyLower (pyStrip sentence)) v.toList) <;>
      cases hb4 : impBoost (pyStrip sentence) <;>
      by_cases hlen : 400 < (pyStrip sentence).length <;>
      simp only [hb1, hb2, hb3, hb4, hlen, if_true, if_false, Bool.false_eq_true] <;>
      norm_num [ratMax, ratMin]

theorem extractLoop_mem (maxT : Nat) (minC : ℚ) (sents : List (List Char))
    (acc : List TaskRec) :
    ∀ t ∈ extractLoop maxT minC sents acc, t ∈ acc ∨
      ∃ sent ∈ sents, minC ≤ score_action_sentence sent ∧
        t = mkTask sent (score_action_sentence sent) := by
  induction sents generalizing acc with
  | nil =>
    intro t ht
    exact Or.inl (by simpa [extractLoop] using ht)
  | cons sent rest ih =>
    intro t ht
    simp only [extractLoop] at ht
    by_cases hsc : minC ≤ score_action_sentence sent
    · simp only [if_pos hsc] at ht
      by_cases hcap : maxT ≤ (acc ++ [mkTask sent (score_action_sentence sent)]).length
      · rw [if_pos hcap] at ht
        rcases List.mem_append.mp ht with hin | hnew
        · exact Or.inl hin
        · refine Or.inr ⟨sent, List.mem_cons_self _ _, hsc, ?_⟩
          simpa using hnew
      · rw [if_neg hcap] at ht
        rcases ih _ t ht with hin | ⟨s2, hs2, hsc2, rfl⟩
        · rcases List.mem_append.mp hin with hin2 | hnew
          · exact Or.inl hin2
          · exact Or.inr ⟨sent, List.mem_cons_self _ _, hsc, by simpa using hnew⟩
        · exact Or.inr ⟨s2, List.mem_cons_of_mem _ hs2, hsc2, rfl⟩
    · simp only [if_neg hsc] at ht
      by_cases hcap : maxT ≤ acc.length
      · rw [if_pos hcap] at ht
        exact Or.inl ht
      · rw [if_neg hcap] at ht
        rcases ih _ t ht with hin | ⟨s2, hs2, hsc2, rfl⟩
        · exact Or.inl hin
        · exact Or.inr ⟨s2, List.mem_cons_of_mem _ hs2, hsc2, rfl⟩

theorem extractLoop_length (maxT : Nat) (minC : ℚ) (sents : List (List Char)) :
    ∀ acc : List TaskRec, acc.length < maxT →
      (extractLoop maxT minC sents acc).length ≤ maxT := by
  induction sents with
  | nil =>
    intro acc hacc
    simpa [extractLoop] using Nat.le_of_lt hacc
  | cons sent rest ih =>
    intro acc hacc
    simp only [extractLoop]
    by_cases hsc : minC ≤ score_action_sentence sent
    · simp only [if_pos hsc]
      by_cases hcap : maxT ≤ (acc ++ [mkTask sent (score_action_sentence sent)]).length
      · rw [if_pos hcap]
        simp only [List.length_append, List.length_singleton]
        omega
      · rw [if_neg hcap]
        exact ih _ (by omega)
    · simp only [if_neg hsc]
      by_cases hcap : maxT ≤ acc.length
      · rw [if_pos hcap]
        omega
      · rw [if_neg hcap]
        exact ih _ (by omega)

theorem pyRstrip_length_le (l : List Char) : (pyRstrip l).length ≤ l.length := by
  unfold pyRstrip
  rw [List.length_reverse]
  calc (l.reverse.dropWhile isPySpace).length ≤ l.reverse.length :=
        length_dropWhile_le _ _
    _ = l.length := List.length_reverse l

theorem mkTask_title_le (sent : List Char) (sc : ℚ) :
    (mkTask sent sc).title.length ≤ 200 := by
  unfold mkTask
  by_cases h : 200 < (pyStrip (stripSpeakerPrefix sent)).length
  · simp only [if_pos h, List.length_append]
    have h1 : (pyRstrip ((pyStrip (stripSpeakerPrefix sent)).take 197)).length ≤ 197 := by
      calc (pyRstrip ((pyStrip (stripSpeakerPrefix sent)).take 197)).length
          ≤ ((pyStrip (stripSpeakerPrefix sent)).take 197).length := pyRstrip_length_le _
        _ ≤ 197 := by simp
    have hdots : (("...".toList : List Char)).length = 3 := by decide
    omega
  · simpa only [if_neg h] using Nat.le_of_not_lt h

theorem score_eval (S : List Char) (b1 b2 b3 b4 : Bool)
    (h0 : S.isEmpty = false)
    (hc : hasConditional (pyLower (pyStrip S)) = false)
    (h1 : (find_owner (pyStrip S)).isSome = b1)
    (h2 : (find_due (pyStrip S)).isSome = b2)
    (h3 : (strongVerbs.any fun v => containsSub (pyLower (pyStrip S)) v.toList) = b3)
    (h4 : impBoost (pyStrip S) = b4)
    (h5 : ¬ (400 < (pyStrip S).length)) :
    score_action_sentence S =
      (if b1 then 4 / 10 else 0) + (if b2 then 2 / 10 else 0) +
      (if b3 then 3 / 10 else 0) + (if b4 then 1 / 10 else 0) := by
  simp only [score_action_sentence, h0, hc, h1, h2, h3, h4, h5, Bool.false_eq_true,
    if_false]
  cases b1 <;> cases b2 <;> cases b3 <;> cases b4 <;> norm_num

theorem extract_single (text sent : List Char) (maxT : Nat) (minC : ℚ)
    (h0 : text.isEmpty = false)
    (hsplit : split_sentences text = [sent])
    (hge : minC ≤ score_action_sentence sent) :
    extract_tasks_structured text maxT minC =
      [mkTask sent (score_action_sentence sent)] := by
  unfold extract_tasks_structured
  rw [if_neg (by simp [h0]), hsplit]
  simp only [extractLoop, if_pos hge, List.nil_append]
  by_cases hcap : maxT ≤ 1
  · rw [if_pos (by simpa using hcap)]
  · rw [if_neg (by simpa using hcap)]

theorem extract_single_none (text sent : List Char) (maxT : Nat) (minC : ℚ)
    (h0 : text.isEmpty = false)
    (hsplit : split_sentences text = [sent])
    (hlt : ¬ (minC ≤ score_action_sentence sent)) :
    extract_tasks_structured text maxT minC = [] := by
  unfold extract_tasks_structured
  rw [if_neg (by simp [h0]), hsplit]
  simp only [extractLoop, if_neg hlt]
  by_cases hcap : maxT ≤ 0
  · rw [if_pos (by simpa using hcap)]
  · rw [if_neg (by simpa using hcap)]

theorem score_fix_sentence :
    score_action_sentence ("Fix the login by Friday.".toList) = 6 / 10 := by
  rw [score_eval _ false true true true (by decide) (by decide) (by decide)
    (by decide) (by decide) (by decide) (by decide)]
  norm_num

theorem score_alice_sentence :
    score_action_sentence ("Alice will fix the index by Friday.".toList) = 9 / 10 := by
  rw [score_eval _ true true true false (by decide) (by decide) (by decide)
    (by decide) (by decide) (by decide) (by decide)]
  norm_num

theorem score_weather_sentence :
    score_action_sentence ("The weather is nice today.".toList) = 0 := by
  rw [score_eval _ false false false false (by decide) (by decide) (by decide)
    (by decide) (by decide) (by decide) (by decide)]
  norm_num

/-- Counterexample to claim C3 as stated: with a caller maximum of `0` tasks
the extractor still emits one task for an actionable sentence, because the
cap check `len(tasks) >= max_tasks` runs only after the append. -/
theorem c3_counterexample :
    (extract_tasks_structured ("Fix the login by Friday.".toList) 0 (4 / 10)).length
      = 1 ∧ ¬ ((1 : Nat) ≤ 0) := by
  constructor
  · rw [extract_single _ ("Fix the login by Friday.".toList) 0 (4 / 10) (by decide)
      (by decide) (by rw [score_fix_sentence]; norm_num)]
    rfl
  · omega

/-- Claim C3 (amended): the score of a sentence that does not trip the
conditional filter is the claimed clamped sum of bonuses and penalty; every
emitted task's sentence scored at least the caller's threshold; the emitted
count is capped by the caller's maximum when that maximum is at least 1
(with a maximum of 0 the first actionable sentence is still emitted, but
never more than one task); every emitted title is at most 200 characters;
and concretely "Alice will fix the index by Friday." scores at least `0.4`
and is the single task emitted at the default threshold, while "The weather
is nice today." scores `0` and is not emitted. -/
theorem c3_amended :
    (∀ sentence : List Char, hasConditional (pyLower (pyStrip sentence)) = false →
        score_action_sentence sentence = specScore sentence) ∧
    (∀ text : List Char, ∀ maxT : Nat, ∀ minC : ℚ,
        ∀ t ∈ extract_tasks_structured text maxT minC,
          minC ≤ score_action_sentence t.raw) ∧
    (∀ text : List Char, ∀ maxT : Nat, ∀ minC : ℚ, 1 ≤ maxT →
        (extract_tasks_structured text maxT minC).length ≤ maxT) ∧
    (∀ text : List Char, ∀ minC : ℚ,
        (extract_tasks_structured text 0 minC).length ≤ 1) ∧
    (∀ text : List Char, ∀ maxT : Nat, ∀ minC : ℚ,
        ∀ t ∈ extract_tasks_structured text maxT minC, t.title.length ≤ 200) ∧
    (4 / 10 : ℚ) ≤ score_action_sentence ("Alice will fix the index by Friday.".toList) ∧
    (extract_tasks_structured ("Alice will fix the index by Friday.".toList) 10 (4 / 10)).map
        (fun t => t.raw) = ["Alice will fix the index by Friday.".toList] ∧
    score_action_sentence ("The weather is nice today.".toList) = 0 ∧
    extract_tasks_structured ("The weather is nice today.".toList) 10 (4 / 10) = [] := by
  refine ⟨score_eq_specScore, ?_, ?_, ?_, ?_,
    by rw [score_alice_sentence]; norm_num,
    by
      rw [extract_single _ ("Alice will fix the index by Friday.".toList) 10 (4 / 10)
        (by decide) (by decide) (by rw [score_alice_sentence]; norm_num)]
      rfl,
    score_weather_sentence,
    extract_single_none _ ("The weather is nice today.".toList) 10 (4 / 10)
      (by decide) (by decide)
      (by rw [score_weather_sentence]; norm_num)⟩
  · intro text maxT minC t ht
    unfold extract_tasks_structured at ht
    by_cases he : text.isEmpty
    · simp [he] at ht
    · rw [if_neg (by simp [he])] at ht
      rcases extractLoop_mem maxT minC _ [] t ht with hin | ⟨sent, _, hsc, rfl⟩
      · simp at hin
      · simpa [mkTask] using hsc
  · intro text maxT minC hmax
    unfold extract_tasks_structured
    by_cases he : text.isEmpty
    · simp [he]
    · rw [if_neg (by simp [he])]
      exact extractLoop_length maxT minC _ [] (by simpa using hmax)
  · intro text minC
    unfold extract_tasks_structured
    by_cases he : text.isEmpty
    · simp [he]
    · rw [if_neg (by simp [he])]
      cases split_sentences text with
      | nil => simp [extractLoop]
      | cons sent rest =>
        simp only [extractLoop]
        by_cases hsc : minC ≤ score_action_sentence sent
        · simp [hsc]
        · simp [hsc, extractLoop]
  · intro text maxT minC t ht
    unfold extract_tasks_structured at ht
    by_cases he : text.isEmpty
    · simp [he] at ht
    · rw [if_neg (by simp [he])] at ht
      rcases extractLoop_mem maxT minC _ [] t ht with hin | ⟨sent, _, _, rfl⟩
      · simp at hin
      · exact mkTask_title_le _ _

/-- Witness applying the amended C3 at concrete inputs: the non-conditional
sentence "The weather is nice today." satisfies the score formula, and the
default-threshold extraction for the Alice sentence respects the cap 10. -/
theorem c3_amended_witness :
    score_action_sentence ("The weather is nice today.".toList) =
      specScore ("The weather is nice today.".toList) ∧
    (extract_tasks_structured ("Alice will fix the index by Friday.".toList)
        10 (4 / 10)).length ≤ 10 :=
  ⟨c3_amended.1 _ (by decide),
   c3_amended.2.2.1 _ 10 (4 / 10) (by omega)⟩

/-! ### C4 — conditional filtering -/

/-- The marker substrings enumerated by claim C4 (the code additionally
anchors on a leading `if `). -/
def c4Markers : List String :=
  [" if ", " might ", " could ", " maybe ", " may ", " if we ",
   "when we ", "when the "]

theorem hasConditional_of_c4 (low : List Char) (m : String) (hmem : m ∈ c4Markers)
    (hc : containsSub low m.toList = true) : hasConditional low = true := by
  refine List.any_eq_true.mpr ⟨m, ?_, ?_⟩
  · fin_cases hmem <;> decide
  · have hIf : (if startsWithChars (pyStrip m.toList) ['^'] = true then
        startsWithChars low (m.toList.drop 1) else containsSub low m.toList) =
        containsSub low m.toList := by
      fin_cases hmem <;> rw [if_neg (by decide)]
    rw [hIf]
    exact hc

/-- Counterexample to claim C4 as stated: the sentence `" might fix it."`
has a lowercased form containing `" might "`, yet scores `0.3`, not `0` —
the code applies the marker test to the stripped sentence, and stripping
removes the leading space the marker needs. -/
theorem c4_counterexample :
    containsSub (pyLower (" might fix it.".toList)) " might ".toList = true ∧
    score_action_sentence (" might fix it.".toList) = 3 / 10 ∧
    (3 / 10 : ℚ) ≠ 0 := by
  refine ⟨by decide, ?_, by norm_num⟩
  rw [score_eval _ false false true false (by decide) (by decide) (by decide)
    (by decide) (by decide) (by decide) (by decide)]
  norm_num

/-- Claim C4 (amended): a sentence whose stripped lowercased form contains
one of the conditional/hypothetical marker substrings scores exactly `0`,
and (at any positive threshold) such a sentence is never emitted as a task;
concretely "If the API fails we might delay the release" scores `0`. -/
theorem c4_amended :
    (∀ sentence : List Char,
        c4Markers.any (fun m => containsSub (pyLower (pyStrip sentence)) m.toList) = true →
        score_action_sentence sentence = 0) ∧
    score_action_sentence ("If the API fails we might delay the release".toList) = 0 ∧
    (∀ text : List Char, ∀ maxT : Nat, ∀ minC : ℚ, 0 < minC →
        ∀ t ∈ extract_tasks_structured text maxT minC,
          c4Markers.any (fun m => containsSub (pyLower (pyStrip t.raw)) m.toList) = false) := by
  have hzero : ∀ sentence : List Char,
      c4Markers.any (fun m => containsSub (pyLower (pyStrip sentence)) m.toList) = true →
      score_action_sentence sentence = 0 := by
    intro sentence hm
    rcases List.any_eq_true.mp hm with ⟨m, hmem, hc⟩
    have hcond := hasConditional_of_c4 _ m hmem hc
    by_cases hemp : sentence.isEmpty
    · simp [score_action_sentence, hemp]
    · simp [score_action_sentence, hemp, hcond]
  refine ⟨hzero, hzero _ (by decide), ?_⟩
  intro text maxT minC hpos t ht
  unfold extract_tasks_structured at ht
  by_cases he : text.isEmpty
  · simp [he] at ht
  · rw [if_neg (by simp [he])] at ht
    rcases extractLoop_mem maxT minC _ [] t ht with hin | ⟨sent, _, hsc, rfl⟩
    · simp at hin
    · by_contra hneq
      have hmark : c4Markers.any
          (fun m => containsSub (pyLower (pyStrip (mkTask sent
            (score_action_sentence sent)).raw)) m.toList) = true := by
        cases hvv : c4Markers.any
            (fun m => containsSub (pyLower (pyStrip (mkTask sent
              (score_action_sentence sent)).raw)) m.toList)
        · exact absurd hvv hneq
        · rfl
      have hr : (mkTask sent (score_action_sentence sent)).raw = sent := rfl
      rw [hr] at hmark
      have h0 := hzero sent hmark
      rw [h0] at hsc
      exact absurd (lt_of_lt_of_le hpos hsc) (lt_irrefl 0)

/-- Witness applying the amended C4 at concrete inputs: "Maybe we could
fix it." contains the marker `" could "` after stripping and scores `0`,
and at the default threshold `0.4` the extraction from that sentence emits
nothing it could carry a marker in. -/
theorem c4_amended_witness :
    score_action_sentence ("Maybe we could fix it.".toList) = 0 ∧
    (∀ t ∈ extract_tasks_structured ("Maybe we could fix it.".toList) 10 (4 / 10),
      c4Markers.any (fun m => containsSub (pyLower (pyStrip t.raw)) m.toList) = false) :=
  ⟨c4_amended.1 _ (by decide),
   c4_amended.2.2 _ 10 (4 / 10) (by norm_num)⟩

/-! ## C2/C10 — summarization pipeline
(`src/meeting_mcp/agents/summarization_agent.py` and
`src/meeting_mcp/agents/mistral_summarizer.py`)

The two inference backends are passed as explicit outcomes
(`Except String (List (String × PyVal))` — a raised exception or the returned
dict); `bart_summarizer.py` is not part of the sources, so the BART backend is
always abstract.  `summarize_with_mistral` is embedded over an abstract model
generation function and an abstract `json.loads`. -/

/-- `(mode or self.mode) or "auto"` followed by `.lower()`. -/
def resolveMode (modeArg : Option String) (selfMode : String) : String :=
  let m1 := match modeArg with
    | some s => if s = "" then selfMode else s
    | none => selfMode
  let m2 := if m1 = "" then "auto" else m1
  String.mk (pyLower m2.toList)

/-- The triple `(summary, action_items, download_link)` read from a backend
result object via `summary_obj.get(...)` with the code's defaults. -/
def branchOk (o : List (String × PyVal)) : PyVal × PyVal × PyVal :=
  (pyGetD o "summary_text" (.str ""), pyGetD o "action_items" (.list []),
   pyGetD o "download_link" .null)

/-- The `except` branch of the `"mistral"` mode (lines 139-150): fall back to
BART; if that also raises, the summary becomes the first 300 characters of
the transcript followed by `"..."` when longer than 300 and otherwise by the
bracketed error annotation. -/
def mistralExceptBranch (full : String) (e : String)
    (bart : Except String (List (String × PyVal))) : PyVal × PyVal × PyVal :=
  match bart with
  | .ok o => branchOk o
  | .error e2 =>
    (.str (String.mk (full.toList.take 300) ++
      (if 300 < full.length then "..."
       else " [Mistral/BART error: " ++ e ++ "; " ++ e2 ++ "]")),
     .list [], .null)

/-- The result dict of `summarize_protocol`: an empty summary is replaced by
the default text (`summary or "No summary generated."`). -/
def protoResult (mode : String) (full : String) (t : PyVal × PyVal × PyVal) :
    List (String × PyVal) :=
  [("summary", pyOr t.1 (.str "No summary generated.")),
   ("action_items", t.2.1),
   ("download_link", t.2.2),
   ("mode", .str mode),
   ("transcript_length", .int (full.length : Int))]

/-- `SummarizationAgent.summarize_protocol(processed_transcripts, mode)` with
the two backend calls abstracted as outcomes.  In mode `"bart"` a failure
produces the annotated excerpt; in mode `"mistral"` a failure falls back to
BART and then to the annotated excerpt; any other mode tries BART then
Mistral then the bare excerpt. -/
def summarize_protocol (transcripts : List String) (modeArg : Option String)
    (selfMode : String) (bart mistral : Except String (List (String × PyVal))) :
    List (String × PyVal) :=
  let mode := resolveMode modeArg selfMode
  let full := String.intercalate "\n" transcripts
  protoResult mode full
    (if mode = "bart" then
      match bart with
      | .ok o => branchOk o
      | .error e =>
        (.str (String.mk (full.toList.take 300) ++
          (if 300 < full.length then "..." else " [BART error: " ++ e ++ "]")),
         .list [], .null)
    else if mode = "mistral" then
      match mistral with
      | .ok o => branchOk o
      | .error e => mistralExceptBranch full e bart
    else
      match bart with
      | .ok o => branchOk o
      | .error _ =>
        match mistral with
        | .ok o => branchOk o
        | .error _ => (.str (String.mk (full.toList.take 300)), .list [], .null))

theorem str_append_ne_empty (a b : String) (hb : b ≠ "") : a ++ b ≠ "" := by
  intro h
  have hlen := congrArg String.length h
  rw [String.length_append] at hlen
  have hb0 : 0 < b.length := by
    by_contra h0
    push_neg at h0
    have hz : b.length = 0 := Nat.le_zero.mp h0
    have hdata : b.data = [] := List.length_eq_zero.mp hz
    exact hb (by cases b; simp_all)
  have hempty : ("" : String).length = 0 := rfl
  omega

theorem resolveMode_mistral (selfMode : String) :
    resolveMode (some "mistral") selfMode = "mistral" := by
  simp only [resolveMode]
  have h1 : (if ("mistral" : String) = "" then selfMode else "mistral") = "mistral" :=
    if_neg (by decide)
  rw [h1]
  rw [if_neg (by decide)]
  decide

theorem pyGet_protoResult_summary (mode full : String) (t : PyVal × PyVal × PyVal) :
    pyGet (protoResult mode full t) "summary" = pyOr t.1 (.str "No summary generated.") := rfl

theorem summarize_protocol_mistral (transcripts : List String) (selfMode : String)
    (bart mistral : Except String (List (String × PyVal))) :
    summarize_protocol transcripts (some "mistral") selfMode bart mistral =
      protoResult "mistral" (String.intercalate "\n" transcripts)
        (match mistral with
         | .ok o => branchOk o
         | .error e =>
           mistralExceptBranch (String.intercalate "\n" transcripts) e bart) := by
  simp only [summarize_protocol]
  rw [resolveMode_mistral]
  rw [if_neg (by decide), if_pos rfl]

theorem pyOr_default_truthy (x : PyVal) :
    pyTruthy (pyOr x (.str "No summary generated.")) = true := by
  unfold pyOr
  by_cases h : pyTruthy x = true
  · rw [if_pos h]
    exact h
  · rw [if_neg h]
    decide

/-- Counterexample to claim C2 as stated: with empty input and both backends
down, the summary is the error annotation `" [Mistral/BART error: ...]"`,
which is neither a verbatim excerpt of the (empty) input nor the default
text `"No summary generated."`. -/
theorem c2_counterexample :
    pyGet (summarize_protocol [] (some "mistral") "auto"
        (.error "bart down") (.error "mistral down")) "summary" =
      .str " [Mistral/BART error: mistral down; bart down]" ∧
    (" [Mistral/BART error: mistral down; bart down]" : String) ≠
      "No summary generated." ∧
    (" [Mistral/BART error: mistral down; bart down]" : String) ≠ "" := by
  refine ⟨?_, by decide, by decide⟩
  rw [summarize_protocol_mistral, pyGet_protoResult_summary]
  rfl

/-- Claim C2 (amended): `summarize_protocol` in mode `"mistral"` with the
Mistral backend unavailable never raises (the embedding is a total function
of the backend outcomes) and always produces a truthy (non-empty) summary;
it first falls back to the BART backend, whose result (or the default text
when that result's summary is empty) it returns; when BART also fails it
returns the first 300 characters of the input followed by `"..."` when the
input exceeds 300 characters and otherwise by a bracketed
`" [Mistral/BART error: ...]"` annotation — so the summary on this path is
the annotated excerpt, never the bare excerpt nor `"No summary
generated."`. -/
theorem c2_amended (transcripts : List String) (selfMode e : String)
    (bart : Except String (List (String × PyVal))) :
    pyTruthy (pyGet (summarize_protocol transcripts (some "mistral") selfMode bart
      (.error e)) "summary") = true ∧
    (∀ o, bart = .ok o →
      pyGet (summarize_protocol transcripts (some "mistral") selfMode bart
        (.error e)) "summary" =
        pyOr (pyGetD o "summary_text" (.str "")) (.str "No summary generated.")) ∧
    (∀ e2, bart = .error e2 →
      pyGet (summarize_protocol transcripts (some "mistral") selfMode bart
        (.error e)) "summary" =
        .str (String.mk ((String.intercalate "\n" transcripts).toList.take 300) ++
          (if 300 < (String.intercalate "\n" transcripts).length then "..."
           else " [Mistral/BART error: " ++ e ++ "; " ++ e2 ++ "]"))) := by
  refine ⟨?_, ?_, ?_⟩
  · rw [summarize_protocol_mistral, pyGet_protoResult_summary]
    exact pyOr_default_truthy _
  · intro o ho
    subst ho
    rw [summarize_protocol_mistral, pyGet_protoResult_summary]
    rfl
  · intro e2 he
    subst he
    rw [summarize_protocol_mistral, pyGet_protoResult_summary]
    unfold mistralExceptBranch pyOr
    have hne : (String.mk ((String.intercalate "\n" transcripts).toList.take 300) ++
        (if 300 < (String.intercalate "\n" transcripts).length then "..."
         else " [Mistral/BART error: " ++ e ++ "; " ++ e2 ++ "]")) ≠ "" := by
      by_cases hc : 300 < (String.intercalate "\n" transcripts).length
      · rw [if_pos hc]
        exact str_append_ne_empty _ _ (by decide)
      · rw [if_neg hc]
        exact str_append_ne_empty _ _ (str_append_ne_empty _ _ (by decide))
    rw [if_pos (by simp only [pyTruthy, decide_eq_true_eq]; exact hne)]

/-- Witness for C2 at concrete inputs: one transcript chunk, BART healthy
(`summary_text = "ok"`), Mistral down. -/
theorem c2_amended_witness :
    pyTruthy (pyGet (summarize_protocol ["hello world"] (some "mistral") "auto"
      (.ok [("summary_text", .str "ok")]) (.error "m down")) "summary") = true ∧
    pyGet (summarize_protocol ["hello world"] (some "mistral") "auto"
      (.ok [("summary_text", .str "ok")]) (.error "m down")) "summary" =
        pyOr (pyGetD [("summary_text", PyVal.str "ok")] "summary_text" (.str ""))
          (.str "No summary generated.") :=
  ⟨(c2_amended ["hello world"] "auto" "m down" (.ok [("summary_text", .str "ok")])).1,
   (c2_amended ["hello world"] "auto" "m down"
      (.ok [("summary_text", .str "ok")])).2.1 _ rfl⟩

/-! ### C10 — the `NameError` in `summarize_with_mistral` -/

/-- The Python exceptions of interest. -/
inductive PyErr where
  | nameError (n : String)
deriving DecidableEq

/-- `str(e)` for a `NameError`. -/
def pyErrMsg : PyErr → String
  | .nameError n =>
    "name " ++ String.mk [Char.ofNat 39] ++ n ++ String.mk [Char.ofNat 39] ++
      " is not defined"

/-- The transcript argument: a single string or a pre-chunked list. -/
inductive TranscriptInput where
  | str (s : String)
  | list (l : List String)

/-- The list-branch filter `t and isinstance(t, str) and len(t.split()) >= 10`. -/
def validChunk (t : String) : Bool :=
  !(t = "") && 10 ≤ (splitWords t.toList).length

/-- The worker of `chunk_text` (1500-word chunks joined by spaces); the fuel,
initially the word count, only makes the recursion structural. -/
def chunkTextFuel : Nat → List (List Char) → List String
  | _, [] => []
  | fuel + 1, ws =>
    String.mk (List.intercalate [' '] (ws.take 1500)) :: chunkTextFuel fuel (ws.drop 1500)
  | 0, _ :: _ => []

/-- `chunk_text(text, max_words=1500)`. -/
def chunk_text (s : String) : List String :=
  chunkTextFuel (splitWords s.toList).length (splitWords s.toList)

/-- Whether `summarize_with_mistral` reaches its chunk loop: the list branch
needs one valid chunk, the string branch a non-empty string of at least ten
words. -/
def hasValidChunks : TranscriptInput → Bool
  | .list l => !(l.filter validChunk).isEmpty
  | .str s => !(s = "" || (splitWords s.toList).length < 10)

/-- The body of the chunk loop of `summarize_with_mistral` (lines 39-206):
the model output is parsed and filtered, and then line 184 — the list
comprehension `[r for r in (risks if isinstance(r, list) else [risks]) ...]`
— evaluates its iterable in the enclosing scope where `r` is unbound, so the
first iteration raises `NameError` before any result can be accumulated. -/
def processChunks (gen : Nat → String → String)
    (loads : String → Option (List (String × PyVal))) (meetingId : String) :
    List String → Nat → Except PyErr (List (String × PyVal))
  | [], _ =>
    .ok [("meeting_id", .str meetingId), ("summary_text", .list []),
         ("action_items", .list []), ("decisions", .list []),
         ("risks", .list []), ("follow_up_questions", .list [])]
  | chunk :: _, idx =>
    let jsonStr := extract_last_json (gen idx chunk).toList
    let parsed : Option (List (String × PyVal)) :=
      match jsonStr with
      | some js => loads (String.mk js)
      | none => none
    let summaryText : PyVal :=
      match parsed with
      | some p => pyGetD p "summary" (.list [])
      | none => .list []
    let actionItems : PyVal :=
      match parsed with
      | some p => pyGetD p "action_items" (.list [])
      | none => .list []
    let _filteredSummaries :=
      (match summaryText with
       | .list l => l
       | v => [v]).filter is_valid_summary_item
    let _filteredActionItems :=
      (match actionItems with
       | .list l => l
       | v => [v]).filter is_valid_action_item
    .error (.nameError "r")

/-- `summarize_with_mistral(tokenizer, model, transcript, meeting_id)` with
the tokenizer/model pipeline abstracted as `gen` (chunk index and text to
decoded output) and `json.loads` abstracted as `loads`. -/
def summarize_with_mistral (gen : Nat → String → String)
    (loads : String → Option (List (String × PyVal)))
    (transcript : TranscriptInput) (meetingId : String) :
    Except PyErr (List (String × PyVal)) :=
  let chunks? : Option (List String) :=
    match transcript with
    | .list l =>
      if (l.filter validChunk).isEmpty then none else some (l.filter validChunk)
    | .str s =>
      if s = "" || (splitWords s.toList).length < 10 then none
      else some (chunk_text s)
  match chunks? with
  | none =>
    .ok [("meeting_id", .str meetingId),
         ("summary_text", .str "Transcript too short for summarization."),
         ("action_items", .list [])]
  | some chunks => processChunks gen loads meetingId chunks 0

/-- The `str(e)` boundary between `summarize_with_mistral` and the caller's
`except Exception as e` handler. -/
def toBackend (r : Except PyErr (List (String × PyVal))) :
    Except String (List (String × PyVal)) :=
  match r with
  | .ok o => .ok o
  | .error e => .error (pyErrMsg e)

theorem chunk_text_ne_nil (s : String) (h : splitWords s.toList ≠ []) :
    chunk_text s ≠ [] := by
  unfold chunk_text
  cases hw : splitWords s.toList with
  | nil => exact absurd hw h
  | cons w rest => simp [chunkTextFuel]

/-- Claim C10: for every transcript yielding at least one valid chunk,
`summarize_with_mistral` raises `NameError` (the loop variable `r` is
referenced inside its own iterable expression) before returning, so every
`summarize_protocol` call in mode `"mistral"` on a transcript of at least
ten words takes the exception-handling fallback branch. -/
theorem c10_mistral_name_error :
    (∀ (gen : Nat → String → String)
       (loads : String → Option (List (String × PyVal)))
       (transcript : TranscriptInput) (meetingId : String),
      hasValidChunks transcript = true →
      summarize_with_mistral gen loads transcript meetingId =
        .error (.nameError "r")) ∧
    (∀ (transcripts : List String) (selfMode : String)
       (bart : Except String (List (String × PyVal)))
       (gen : Nat → String → String)
       (loads : String → Option (List (String × PyVal))),
      10 ≤ (splitWords (String.intercalate "\n" transcripts).toList).length →
      summarize_protocol transcripts (some "mistral") selfMode bart
        (toBackend (summarize_with_mistral gen loads
          (.str (String.intercalate "\n" transcripts)) "meeting")) =
        protoResult "mistral" (String.intercalate "\n" transcripts)
          (mistralExceptBranch (String.intercalate "\n" transcripts)
            (pyErrMsg (.nameError "r")) bart)) := by
  have hmain : ∀ (gen : Nat → String → String)
      (loads : String → Option (List (String × PyVal)))
      (transcript : TranscriptInput) (meetingId : String),
      hasValidChunks transcript = true →
      summarize_with_mistral gen loads transcript meetingId =
        .error (.nameError "r") := by
    intro gen loads transcript meetingId hv
    cases transcript with
    | list l =>
      simp only [hasValidChunks, Bool.not_eq_eq_eq_not, Bool.not_true] at hv
      simp only [summarize_with_mistral]
      rw [if_neg (by simp [hv])]
      rcases hne : l.filter validChunk with _ | ⟨c, rest⟩
      · rw [hne] at hv
        simp at hv
      · simp [processChunks]
    | str s =>
      simp only [hasValidChunks, Bool.not_eq_eq_eq_not, Bool.not_true] at hv
      simp only [summarize_with_mistral]
      rw [if_neg (by rw [hv]; decide)]
      have hw : splitWords s.toList ≠ [] := by
        intro hnil
        rw [Bool.or_eq_false_iff] at hv
        have := hv.2
        rw [hnil] at this
        simp at this
      rcases hc : chunk_text s with _ | ⟨c, rest⟩
      · exact absurd hc (chunk_text_ne_nil s hw)
      · simp [processChunks]
  refine ⟨hmain, ?_⟩
  intro transcripts selfMode bart gen loads hlen
  have hv : hasValidChunks (.str (String.intercalate "\n" transcripts)) = true := by
    simp only [hasValidChunks, Bool.or_eq_false_iff, Bool.not_eq_eq_eq_not,
      Bool.not_true, Bool.not_false]
    constructor
    · cases hd : decide (String.intercalate "\n" transcripts = "")
      · rfl
      · exfalso
        have heq := of_decide_eq_true hd
        rw [heq] at hlen
        have : splitWords ("".toList) = [] := by decide
        rw [this] at hlen
        simp at hlen
    · simp only [decide_eq_false_iff_not]
      omega
  rw [hmain gen loads _ "meeting" hv]
  rw [summarize_protocol_mistral]
  rfl

/-- Witness for C10 at a concrete input: a ten-word transcript with a model
that returns empty output and a parser that never succeeds still raises the
`NameError`, and the protocol-level call lands in the fallback branch. -/
theorem c10_mistral_name_error_witness :
    summarize_with_mistral (fun _ _ => "") (fun _ => none)
      (.str "a b c d e f g h i j") "m" = .error (.nameError "r") ∧
    summarize_protocol ["a b c d e f g h i j"] (some "mistral") "auto"
      (.error "bart down")
      (toBackend (summarize_with_mistral (fun _ _ => "") (fun _ => none)
        (.str (String.intercalate "\n" ["a b c d e f g h i j"])) "meeting")) =
      protoResult "mistral" (String.intercalate "\n" ["a b c d e f g h i j"])
        (mistralExceptBranch (String.intercalate "\n" ["a b c d e f g h i j"])
          (pyErrMsg (.nameError "r")) (.error "bart down")) :=
  ⟨c10_mistral_name_error.1 _ _ _ "m" (by decide),
   c10_mistral_name_error.2 ["a b c d e f g h i j"] "auto" (.error "bart down")
     (fun _ _ => "") (fun _ => none) (by decide)⟩

/-! ## C7 — tool boundary never raises
(`src/meeting_mcp/tools/summarization_tool.py`, `risk_tool.py`,
`jira_tool.py`, `notification_tool.py`)

Each tool's `execute` wraps its agent call in `try/except`; the call (run in
an executor) is abstracted as an `Except` outcome, and the pre-`try` code is
only `dict.get` chains on the params, which cannot raise on a dict or
`None`. -/

/-- `params = params or {}`. -/
def paramsOrEmpty (params : Option (List (String × PyVal))) : List (String × PyVal) :=
  match params with
  | some kvs => kvs
  | none => []

/-- `SummarizationTool.execute(params)`. -/
def summarizationToolExecute (params : Option (List (String × PyVal)))
    (agentOutcome : Except String (List (String × PyVal))) : List (String × PyVal) :=
  let p := paramsOrEmpty params
  let _processed := pyOr (pyOr (pyGet p "processed_transcripts") (pyGet p "processed")) (.list [])
  let _mode := pyOr (pyGet p "mode") (pyGet p "summarizer")
  match agentOutcome with
  | .ok result => [("status", .str "success"), ("summary", .dict result)]
  | .error e => [("status", .str "error"), ("message", .str e)]

/-- `include_jira = params.get("include_jira", None)`, defaulting to
`bool(self._agent.jira)` when absent; the parameter value itself is used as
the flag (by truthiness). -/
def includeJiraFlag (p : List (String × PyVal)) (agentJira : Bool) : Bool :=
  match p.find? (fun kv => kv.1 = "include_jira") with
  | some kv => pyTruthy kv.2
  | none => agentJira

/-- `RiskTool.execute(params)`: summary-based detection first; then, when
`include_jira` (defaulting to whether a Jira client is configured) and a
client exists, Jira-based detection; the merged list is returned. -/
def riskToolExecute (params : Option (List (String × PyVal))) (agentJira : Bool)
    (detectOutcome jiraOutcome : Except String (List (List (String × PyVal)))) :
    List (String × PyVal) :=
  let p := paramsOrEmpty params
  let _meetingId := pyGetD p "meeting_id" (.str "ui_session")
  let _summary := pyGetD p "summary" (.dict [])
  let _tasks := pyGetD p "tasks" (.list [])
  let _progress := pyGetD p "progress" (.dict [])
  match detectOutcome with
  | .error e => [("status", .str "error"), ("message", .str e)]
  | .ok summaryRisks =>
    if includeJiraFlag p agentJira && agentJira then
      match jiraOutcome with
      | .error e => [("status", .str "error"), ("message", .str e)]
      | .ok jiraRisks =>
        [("status", .str "success"),
         ("risks", .list ((summaryRisks ++ jiraRisks).map PyVal.dict)),
         ("summary_risks", .list (summaryRisks.map PyVal.dict)),
         ("jira_risks", .list (jiraRisks.map PyVal.dict))]
    else
      [("status", .str "success"),
       ("risks", .list (summaryRisks.map PyVal.dict)),
       ("summary_risks", .list (summaryRisks.map PyVal.dict)),
       ("jira_risks", .list [])]

/-- One part of an agent-to-agent response message (used only through its
content type and content, per §4.1). -/
structure A2APart where
  isJson : Bool
  content : PyVal

/-- `JiraTool.execute(params)`: unwrap the first JSON part of the agent's
response message. -/
def jiraToolExecute (params : Option (List (String × PyVal)))
    (handleOutcome : Except String (List A2APart)) : List (String × PyVal) :=
  let p := paramsOrEmpty params
  let _actionItems := pyOr (pyOr (pyGet p "action_items") (pyGet p "action_items_list")) (.list [])
  let _user := pyGet p "user"
  let _date := pyGet p "date"
  match handleOutcome with
  | .error e => [("status", .str "error"), ("message", .str e)]
  | .ok parts =>
    match parts.find? (fun part => part.isJson) with
    | some part => [("status", .str "success"), ("results", part.content)]
    | none => [("status", .str "error"), ("message", .str "No JSON part in agent response")]

/-- `NotificationTool.execute(params)`. -/
def notificationToolExecute (params : Option (List (String × PyVal)))
    (notifyOutcome : Except String PyVal) : List (String × PyVal) :=
  let p := paramsOrEmpty params
  let _meetingId := pyGetD p "meeting_id" (.str "ui_session")
  let _summary := pyGetD p "summary" (.dict [])
  let _tasks := pyGetD p "tasks" (.list [])
  let _risks := pyGetD p "risks" (.list [])
  match notifyOutcome with
  | .ok res => [("status", .str "success"), ("notified", .bool (pyTruthy res))]
  | .error e => [("status", .str "error"), ("message", .str e)]

/-- Claim C7: every tool boundary returns a dict whose `status` is
`"success"` or `"error"`, and converts any internal failure into
`{status: "error", message: <diagnostic>}`; the embeddings are total
functions of the abstracted call outcomes, so no exception propagates past
`execute`. -/
theorem c7_tool_status :
    (∀ params agentOutcome,
      (pyGet (summarizationToolExecute params agentOutcome) "status" = .str "success" ∨
       pyGet (summarizationToolExecute params agentOutcome) "status" = .str "error") ∧
      ∀ e, agentOutcome = .error e →
        summarizationToolExecute params agentOutcome =
          [("status", .str "error"), ("message", .str e)]) ∧
    (∀ params agentJira detectOutcome jiraOutcome,
      (pyGet (riskToolExecute params agentJira detectOutcome jiraOutcome) "status" =
          .str "success" ∨
       pyGet (riskToolExecute params agentJira detectOutcome jiraOutcome) "status" =
          .str "error") ∧
      ∀ e, detectOutcome = .error e →
        riskToolExecute params agentJira detectOutcome jiraOutcome =
          [("status", .str "error"), ("message", .str e)]) ∧
    (∀ params handleOutcome,
      (pyGet (jiraToolExecute params handleOutcome) "status" = .str "success" ∨
       pyGet (jiraToolExecute params handleOutcome) "status" = .str "error") ∧
      ∀ e, handleOutcome = .error e →
        jiraToolExecute params handleOutcome =
          [("status", .str "error"), ("message", .str e)]) ∧
    (∀ params notifyOutcome,
      (pyGet (notificationToolExecute params notifyOutcome) "status" = .str "success" ∨
       pyGet (notificationToolExecute params notifyOutcome) "status" = .str "error") ∧
      ∀ e, notifyOutcome = .error e →
        notificationToolExecute params notifyOutcome =
          [("status", .str "error"), ("message", .str e)]) := by
  refine ⟨?_, ?_, ?_, ?_⟩
  · intro params agentOutcome
    cases agentOutcome with
    | ok result => exact ⟨Or.inl rfl, by intro e he; cases he⟩
    | error e => exact ⟨Or.inr rfl, by intro e2 he; cases he; rfl⟩
  · intro params agentJira detectOutcome jiraOutcome
    cases detectOutcome with
    | ok summaryRisks =>
      refine ⟨?_, by intro e he; cases he⟩
      by_cases hj : includeJiraFlag (paramsOrEmpty params) agentJira && agentJira
      · cases jiraOutcome with
        | ok jiraRisks =>
          simp only [riskToolExecute, hj, if_true]
          exact Or.inl rfl
        | error e =>
          simp only [riskToolExecute, hj, if_true]
          exact Or.inr rfl
      · simp only [riskToolExecute, hj]
        rw [if_neg (by simp [hj])]
        exact Or.inl rfl
    | error e => exact ⟨Or.inr rfl, by intro e2 he; cases he; rfl⟩
  · intro params handleOutcome
    cases handleOutcome with
    | ok parts =>
      refine ⟨?_, by intro e he; cases he⟩
      cases hf : parts.find? (fun part => part.isJson) with
      | some part =>
        simp only [jiraToolExecute, hf]
        exact Or.inl rfl
      | none =>
        simp only [jiraToolExecute, hf]
        exact Or.inr rfl
    | error e => exact ⟨Or.inr rfl, by intro e2 he; cases he; rfl⟩
  · intro params notifyOutcome
    cases notifyOutcome with
    | ok res => exact ⟨Or.inl rfl, by intro e he; cases he⟩
    | error e => exact ⟨Or.inr rfl, by intro e2 he; cases he; rfl⟩

/-- Witness for C7 at concrete inputs: a failing summarization call and a
failing notification call both surface as `{status: "error", message: …}`. -/
theorem c7_tool_status_witness :
    summarizationToolExecute none (.error "model load failed") =
      [("status", .str "error"), ("message", .str "model load failed")] ∧
    notificationToolExecute none (.error "webhook down") =
      [("status", .str "error"), ("message", .str "webhook down")] :=
  ⟨(c7_tool_status.1 none (.error "model load failed")).2 _ rfl,
   (c7_tool_status.2.2.2 none (.error "webhook down")).2 _ rfl⟩

/-! ## C8 — per-item ticket-creation outcomes
(`JiraAgent.create_jira_issues`, `src/meeting_mcp/agents/jira_agent.py`
lines 77-162)

Action items are dicts; the `jira` package availability, the three
credentials, the client construction and the per-issue creation calls are
abstracted as parameters. -/

/-- Truthiness failure of one credential (`not JIRA_URL` etc.: missing or
empty). -/
def optFalsy : Option String → Bool
  | some s => s = ""
  | none => true

/-- The guard `not JIRA or not JIRA_URL or not JIRA_USER or not JIRA_TOKEN`. -/
def jiraCredsMissing (jiraPkg : Bool) (url user token : Option String) : Bool :=
  !jiraPkg || optFalsy url || optFalsy user || optFalsy token

/-- `item.get("summary") or item.get("title") or str(item)`. -/
def itemTitle (item : List (String × PyVal)) : PyVal :=
  pyOr (pyOr (pyGet item "summary") (pyGet item "title"))
    (.str (String.mk (pyStr (.dict item))))

/-- The record appended for one item when Jira is unusable. -/
def skippedRec (item : List (String × PyVal)) : List (String × PyVal) :=
  [("title", itemTitle item), ("owner", pyGet item "owner"),
   ("due", pyGet item "due"), ("jira_issue_key", .null),
   ("status", .str "skipped"),
   ("reason", .str "jira package or credentials missing")]

/-- The record appended for one item when the client constructor raised. -/
def connectErrRec (item : List (String × PyVal)) (e : String) :
    List (String × PyVal) :=
  [("title", itemTitle item), ("owner", pyGet item "owner"),
   ("due", pyGet item "due"), ("jira_issue_key", .null),
   ("status", .str "error"), ("reason", .str e)]

/-- The record appended when one issue is created (the key read with
`getattr(issue, 'key', None)`). -/
def createdRec (item : List (String × PyVal)) (key : Option String) :
    List (String × PyVal) :=
  [("title", itemTitle item), ("owner", pyGet item "owner"),
   ("due", pyGet item "due"),
   ("jira_issue_key", match key with
     | some k => .str k
     | none => .null),
   ("status", .str "created")]

/-- The record appended when creating one issue raised. -/
def itemErrRec (item : List (String × PyVal)) (e : String) :
    List (String × PyVal) :=
  [("title", itemTitle item), ("owner", pyGet item "owner"),
   ("due", pyGet item "due"), ("jira_issue_key", .null),
   ("status", .str "error"), ("reason", .str e)]

/-- The creation loop: the `i`-th item gets the `i`-th creation outcome; one
item's failure is recorded in its own entry and the loop continues. -/
def createLoop (create : Nat → Except String (Option String)) :
    List (List (String × PyVal)) → Nat → List (List (String × PyVal))
  | [], _ => []
  | item :: rest, i =>
    (match create i with
     | .ok key => createdRec item key
     | .error e => itemErrRec item e) :: createLoop create rest (i + 1)

/-- `JiraAgent.create_jira_issues(action_items, user, date)`: overall status
and the `created_tasks` records. -/
def create_jira_issues (items : List (List (String × PyVal)))
    (jiraPkg : Bool) (url user token : Option String)
    (connect : Except String Unit)
    (create : Nat → Except String (Option String)) :
    String × List (List (String × PyVal)) :=
  if jiraCredsMissing jiraPkg url user token then
    ("skipped", items.map skippedRec)
  else
    match connect with
    | .error e => ("error", items.map (fun it => connectErrRec it e))
    | .ok _ => ("success", createLoop create items 0)

theorem createLoop_length (create : Nat → Except String (Option String)) :
    ∀ (items : List (List (String × PyVal))) (n : Nat),
      (createLoop create items n).length = items.length := by
  intro items
  induction items with
  | nil => intro n; rfl
  | cons item rest ih =>
    intro n
    simp [createLoop, ih (n + 1)]

theorem createLoop_get (create : Nat → Except String (Option String)) :
    ∀ (items : List (List (String × PyVal))) (n i : Nat),
      (createLoop create items n)[i]? =
        (items[i]?).map (fun item =>
          match create (n + i) with
          | .ok key => createdRec item key
          | .error e => itemErrRec item e) := by
  intro items
  induction items with
  | nil => intro n i; simp [createLoop]
  | cons item rest ih =>
    intro n i
    cases i with
    | zero => simp [createLoop]
    | succ j =>
      simp only [createLoop, List.getElem?_cons_succ]
      rw [ih (n + 1) j]
      have hnj : n + 1 + j = n + (j + 1) := by omega
      rw [hnj]

/-- Counterexample to claim C8 as stated: in the skipped case the record for
`{"summary": "Fix login bug"}` has no `issue_key` field — the issue-key
field is named `jira_issue_key`. -/
theorem c8_counterexample :
    (create_jira_issues [[("summary", .str "Fix login bug")]] false none none none
      (.ok ()) (fun _ => .ok none)).1 = "skipped" ∧
    (create_jira_issues [[("summary", .str "Fix login bug")]] false none none none
      (.ok ()) (fun _ => .ok none)).2.length = 1 ∧
    (((create_jira_issues [[("summary", .str "Fix login bug")]] false none none none
      (.ok ()) (fun _ => .ok none)).2.headD []).find?
        (fun kv => kv.1 = "issue_key")).isSome = false ∧
    (((create_jira_issues [[("summary", .str "Fix login bug")]] false none none none
      (.ok ()) (fun _ => .ok none)).2.headD []).find?
        (fun kv => kv.1 = "jira_issue_key")).isSome = true := by
  refine ⟨rfl, rfl, ?_, ?_⟩ <;> rfl

/-- Claim C8 (amended): `create_jira_issues` returns exactly one record per
input action item, in input order; each record carries `title`, `owner`,
`due`, `jira_issue_key` (the claim's `issue_key` under its actual name) and
`status`; when the `jira` package or a credential is missing the overall
status is `"skipped"` and every record has status `"skipped"` with a null
issue key; when the client connects, the overall status is `"success"` and
the `i`-th record is determined by the `i`-th creation outcome alone —
status `"created"` with the key on success, status `"error"` with the
diagnostic as `reason` on failure — so a batch partially succeeds. -/
theorem c8_amended :
    (∀ items jiraPkg url user token connect create,
      (create_jira_issues items jiraPkg url user token connect create).2.length =
        items.length) ∧
    (∀ items jiraPkg url user token connect create,
      ∀ r ∈ (create_jira_issues items jiraPkg url user token connect create).2,
        (r.find? (fun kv => kv.1 = "title")).isSome = true ∧
        (r.find? (fun kv => kv.1 = "owner")).isSome = true ∧
        (r.find? (fun kv => kv.1 = "due")).isSome = true ∧
        (r.find? (fun kv => kv.1 = "jira_issue_key")).isSome = true ∧
        (r.find? (fun kv => kv.1 = "status")).isSome = true) ∧
    (∀ items jiraPkg url user token connect create,
      jiraCredsMissing jiraPkg url user token = true →
      (create_jira_issues items jiraPkg url user token connect create).1 = "skipped" ∧
      ∀ r ∈ (create_jira_issues items jiraPkg url user token connect create).2,
        pyGet r "status" = .str "skipped" ∧ pyGet r "jira_issue_key" = .null) ∧
    (∀ items jiraPkg url user token create,
      jiraCredsMissing jiraPkg url user token = false →
      (create_jira_issues items jiraPkg url user token (.ok ()) create).1 =
        "success" ∧
      ∀ i : Nat,
        (create_jira_issues items jiraPkg url user token (.ok ()) create).2[i]? =
          (items[i]?).map (fun item =>
            match create i with
            | .ok key => createdRec item key
            | .error e => itemErrRec item e)) := by
  refine ⟨?_, ?_, ?_, ?_⟩
  · intro items jiraPkg url user token connect create
    unfold create_jira_issues
    by_cases h : jiraCredsMissing jiraPkg url user token = true
    · simp [h]
    · rw [if_neg h]
      cases connect with
      | error e => simp
      | ok u => simp [createLoop_length]
  · intro items jiraPkg url user token connect create r hr
    unfold create_jira_issues at hr
    by_cases h : jiraCredsMissing jiraPkg url user token = true
    · rw [if_pos h] at hr
      rcases List.mem_map.mp hr with ⟨item, _, rfl⟩
      exact ⟨rfl, rfl, rfl, rfl, rfl⟩
    · rw [if_neg h] at hr
      cases connect with
      | error e =>
        rcases List.mem_map.mp hr with ⟨item, _, rfl⟩
        exact ⟨rfl, rfl, rfl, rfl, rfl⟩
      | ok u =>
        rcases List.mem_iff_getElem?.mp hr with ⟨i, hi⟩
        rw [createLoop_get] at hi
        rcases hx : items[i]? with _ | item
        · rw [hx] at hi
          cases hi
        · rw [hx] at hi
          simp only [Option.map] at hi
          cases hcr : create (0 + i) with
          | ok key =>
            rw [hcr] at hi
            cases hi
            exact ⟨rfl, rfl, rfl, rfl, rfl⟩
          | error e =>
            rw [hcr] at hi
            cases hi
            exact ⟨rfl, rfl, rfl, rfl, rfl⟩
  · intro items jiraPkg url user token connect create h
    unfold create_jira_issues
    rw [if_pos h]
    refine ⟨rfl, ?_⟩
    intro r hr
    rcases List.mem_map.mp hr with ⟨item, _, rfl⟩
    exact ⟨rfl, rfl⟩
  · intro items jiraPkg url user token create h
    unfold create_jira_issues
    rw [if_neg (by simp [h])]
    refine ⟨rfl, ?_⟩
    intro i
    rw [createLoop_get]
    simp

/-- Witness applying the amended C8 at concrete inputs: one item, working
client, first creation succeeding with key `PROJ-1`. -/
theorem c8_amended_witness :
    (create_jira_issues [[("summary", .str "Fix login bug"), ("owner", .str "Bob")]]
      true (some "https://jira") (some "u") (some "t") (.ok ())
      (fun _ => .ok (some "PROJ-1"))).1 = "success" ∧
    (create_jira_issues [[("summary", .str "Fix login bug"), ("owner", .str "Bob")]]
      true (some "https://jira") (some "u") (some "t") (.ok ())
      (fun _ => .ok (some "PROJ-1"))).2[0]? =
      some (createdRec [("summary", .str "Fix login bug"), ("owner", .str "Bob")]
        (some "PROJ-1")) := by
  have h := c8_amended.2.2.2
    [[("summary", PyVal.str "Fix login bug"), ("owner", PyVal.str "Bob")]]
    true (some "https://jira") (some "u") (some "t")
    (fun _ => .ok (some "PROJ-1")) (by decide)
  exact ⟨h.1, by rw [h.2 0]; rfl⟩

/-! ## C9 — risk record shape
(`RiskDetectionAgent.detect` / `detect_jira_risks`,
`src/meeting_mcp/agents/risk_detection_agent.py`, merged by
`RiskTool.execute`)

The opaque id generator (`uuid4` hex prefixes) is abstracted as an indexed
supply `ids`; Jira query results are abstracted per query, an exception
meaning that query's `except: pass` skips its block. -/

/-- One summary-based risk record: id, meeting id, description, severity,
source. -/
def riskRec (idStr meetingId desc sev src : String) : List (String × PyVal) :=
  [("id", .str idStr), ("meeting_id", .str meetingId),
   ("description", .str desc), ("severity", .str sev), ("source", .str src)]

/-- The `summary` argument of `detect`: a dict (with `blockers` and
`summary_text` read by `.get`, string-valued `summary_text` assumed) or any
other value, which is rendered with `str(...)`. -/
inductive SummaryArg where
  | dict (blockers : List PyVal) (summaryText : String)
  | other (s : String)

/-- The keyword vocabulary of the heuristic scan. -/
def riskTerms : List String :=
  ["delay", "delayed", "blocked", "blocking", "pending", "cannot", "error",
   "risk", "concern", "issue"]

/-- The explicit-blockers loop: one high-severity summary-sourced record per
blocker, ids consumed in order. -/
def blockerRecs (meetingId : String) (ids : Nat → String) :
    List PyVal → Nat → List (List (String × PyVal))
  | [], _ => []
  | b :: rest, k =>
    riskRec ("risk_" ++ ids k) meetingId (String.mk (pyStr b)) "high" "summary" ::
      blockerRecs meetingId ids rest (k + 1)

/-- `if not risks:` — the low-severity placeholder when nothing was found. -/
def withPlaceholder (meetingId : String) (ids : Nat → String)
    (risks : List (List (String × PyVal))) : List (List (String × PyVal)) :=
  if risks.isEmpty then
    [riskRec ("risk_" ++ ids 0) meetingId "No immediate risks detected." "low" "analysis"]
  else risks

/-- The keyword-scan record: emitted when any risk term occurs in the
lowercased summary text. -/
def termRecs (meetingId idStr : String) (st : List Char) :
    List (List (String × PyVal)) :=
  if riskTerms.any (fun t => containsSub st t.toList) then
    [riskRec idStr meetingId
      "Detected terms indicating potential delay, blockage or concern."
      "medium" "summary"]
  else []

/-- The task-count record: emitted when `tasks` is a list of more than five
entries. -/
def taskCountRecs (meetingId idStr : String) (tasks : PyVal) :
    List (List (String × PyVal)) :=
  match tasks with
  | .list l =>
    if 5 < l.length then
      [riskRec idStr meetingId
        "Many tasks created in a single meeting; review capacity and scope."
        "medium" "tasks"]
    else []
  | _ => []

/-- The `blockers` read of `detect` (`summary.get("blockers", []) or []`
when the summary is a dict, `[]` otherwise). -/
def summaryBlockers : SummaryArg → List PyVal
  | .dict bs _ => bs
  | .other _ => []

/-- The `summary_text` read of `detect` (the dict field, or `str(summary)`
for non-dicts). -/
def summaryTextOf : SummaryArg → String
  | .dict _ stx => stx
  | .other s => s

/-- `RiskDetectionAgent.detect(meeting_id, summary, tasks, progress)`. -/
def detect (meetingId : String) (summary : SummaryArg) (tasks : PyVal)
    (_progress : PyVal) (ids : Nat → String) : List (List (String × PyVal)) :=
  let brs := blockerRecs meetingId ids (summaryBlockers summary) 0
  let trs := termRecs meetingId ("risk_" ++ ids (summaryBlockers summary).length)
    (pyLower (summaryTextOf summary).toList)
  let krs := taskCountRecs meetingId
    ("risk_" ++ ids ((summaryBlockers summary).length + trs.length)) tasks
  withPlaceholder meetingId ids (brs ++ trs ++ krs)

/-- One Jira issue as read through `getattr(..., None)`. -/
structure JiraIssue where
  key : Option String
  summary : Option String
  duedate : Option String
  updated : Option String
  priority : Option String

/-- `getattr` results as payload values. -/
def optVal : Option String → PyVal
  | some s => .str s
  | none => .null

/-- `detect_jira_risks(days_overdue=0, days_stale=7)`: six JQL queries, each
protected by `try/except: pass`; the records carry `type`, `key`, `summary`,
per-query extras, `description` and `source: "jira"` — no id, no meeting id,
no severity. -/
def detect_jira_risks (jiraConfigured : Bool) (daysStale : Nat)
    (q1 q2 q3 q4 q5 q6 : Except String (List JiraIssue)) :
    List (List (String × PyVal)) :=
  if !jiraConfigured then []
  else
    (match q1 with
     | .error _ => []
     | .ok issues => issues.map (fun iss =>
        [("type", .str "overdue"), ("key", optVal iss.key),
         ("summary", optVal iss.summary), ("due_date", optVal iss.duedate),
         ("description", .str "Task is overdue."), ("source", .str "jira")])) ++
    (match q2 with
     | .error _ => []
     | .ok issues => issues.map (fun iss =>
        [("type", .str "unassigned"), ("key", optVal iss.key),
         ("summary", optVal iss.summary),
         ("description", .str "Task is unassigned."), ("source", .str "jira")])) ++
    (match q3 with
     | .error _ => []
     | .ok issues => issues.map (fun iss =>
        [("type", .str "blocked"), ("key", optVal iss.key),
         ("summary", optVal iss.summary),
         ("description", .str "Task is blocked or flagged."),
         ("source", .str "jira")])) ++
    (match q4 with
     | .error _ => []
     | .ok issues => issues.map (fun iss =>
        [("type", .str "no_due_date"), ("key", optVal iss.key),
         ("summary", optVal iss.summary),
         ("description", .str "Task has no due date."), ("source", .str "jira")])) ++
    (match q5 with
     | .error _ => []
     | .ok issues => issues.map (fun iss =>
        [("type", .str "stale"), ("key", optVal iss.key),
         ("summary", optVal iss.summary), ("last_updated", optVal iss.updated),
         ("description", .str ("Task not updated in " ++ toString daysStale ++ "+ days.")),
         ("source", .str "jira")])) ++
    (match q6 with
     | .error _ => []
     | .ok issues => issues.map (fun iss =>
        [("type", .str "high_priority"), ("key", optVal iss.key),
         ("summary", optVal iss.summary), ("priority", optVal iss.priority),
         ("description", .str "High priority task unresolved."),
         ("source", .str "jira")]))

theorem blockerRecs_shape (meetingId : String) (ids : Nat → String) :
    ∀ (bs : List PyVal) (k : Nat), ∀ r ∈ blockerRecs meetingId ids bs k,
      ∃ idStr desc, r = riskRec idStr meetingId desc "high" "summary" := by
  intro bs
  induction bs with
  | nil => intro k r hr; cases hr
  | cons b rest ih =>
    intro k r hr
    rcases List.mem_cons.mp hr with rfl | hr2
    · exact ⟨_, _, rfl⟩
    · exact ih (k + 1) r hr2

theorem termRecs_shape (meetingId idStr : String) (st : List Char) :
    ∀ r ∈ termRecs meetingId idStr st,
      r = riskRec idStr meetingId
        "Detected terms indicating potential delay, blockage or concern."
        "medium" "summary" := by
  intro r hr
  unfold termRecs at hr
  by_cases h : riskTerms.any (fun t => containsSub st t.toList)
  · rw [if_pos h] at hr
    exact List.mem_singleton.mp hr
  · rw [if_neg h] at hr
    cases hr

theorem taskCountRecs_shape (meetingId idStr : String) (tasks : PyVal) :
    ∀ r ∈ taskCountRecs meetingId idStr tasks,
      r = riskRec idStr meetingId
        "Many tasks created in a single meeting; review capacity and scope."
        "medium" "tasks" := by
  intro r hr
  rcases tasks with s | n | b | _ | l | kvs
  all_goals simp only [taskCountRecs] at hr
  · cases hr
  · cases hr
  · cases hr
  · cases hr
  · by_cases h : 5 < l.length
    · rw [if_pos h] at hr
      exact List.mem_singleton.mp hr
    · rw [if_neg h] at hr
      cases hr
  · cases hr

theorem withPlaceholder_shape (meetingId : String) (ids : Nat → String)
    (rl : List (List (String × PyVal)))
    (h : ∀ r ∈ rl, ∃ idStr desc sev src, r = riskRec idStr meetingId desc sev src ∧
      sev ∈ (["high", "medium", "low"] : List String) ∧
      src ∈ (["summary", "tasks", "analysis"] : List String)) :
    ∀ r ∈ withPlaceholder meetingId ids rl,
      ∃ idStr desc sev src, r = riskRec idStr meetingId desc sev src ∧
        sev ∈ (["high", "medium", "low"] : List String) ∧
        src ∈ (["summary", "tasks", "analysis"] : List String) := by
  intro r hr
  unfold withPlaceholder at hr
  by_cases he : rl.isEmpty
  · rw [if_pos he] at hr
    rcases List.mem_singleton.mp hr with rfl
    exact ⟨_, _, "low", "analysis", rfl, by simp, by simp⟩
  · rw [if_neg he] at hr
    exact h r hr

/-- Counterexample to claim C9 as stated: the risk tool's merged `risks`
list can contain a Jira-sourced record (here an overdue issue) that carries
no `severity` key at all — and no `id` or `meeting_id` either. -/
theorem c9_counterexample :
    pyGet (riskToolExecute (some [("include_jira", .bool true)]) true
        (.ok (detect "m1" (.dict [] "") (.list []) .null (fun _ => "abcd1234")))
        (.ok (detect_jira_risks true 7
          (.ok [⟨some "PROJ-9", some "Fix index", some "2024-01-01", none, none⟩])
          (.ok []) (.ok []) (.ok []) (.ok []) (.ok [])))) "risks" =
      .list
        [.dict (riskRec "risk_abcd1234" "m1" "No immediate risks detected."
          "low" "analysis"),
         .dict [("type", .str "overdue"), ("key", .str "PROJ-9"),
                ("summary", .str "Fix index"), ("due_date", .str "2024-01-01"),
                ("description", .str "Task is overdue."), ("source", .str "jira")]] ∧
    ([("type", PyVal.str "overdue"), ("key", PyVal.str "PROJ-9"),
      ("summary", PyVal.str "Fix index"), ("due_date", PyVal.str "2024-01-01"),
      ("description", PyVal.str "Task is overdue."),
      ("source", PyVal.str "jira")].find? (fun kv => kv.1 = "severity")).isSome =
      false := by
  exact ⟨rfl, rfl⟩

/-- Claim C9 (amended): every record produced by the summary-based detector
carries an id, the meeting id, a description, a severity in
`{high, medium, low}` and a source in `{summary, tasks, analysis}`; every
record produced by Jira-based detection instead carries `type`, `key`,
`summary`, a description and source `"jira"`, with no `id`, `meeting_id` or
`severity` keys; the risk tool's merged `risks` list is the concatenation of
the two, so the full claimed shape holds only for its summary-based part. -/
theorem c9_amended :
    (∀ meetingId summary tasks progress ids,
      ∀ r ∈ detect meetingId summary tasks progress ids,
        ∃ idStr desc sev src, r = riskRec idStr meetingId desc sev src ∧
          sev ∈ (["high", "medium", "low"] : List String) ∧
          src ∈ (["summary", "tasks", "analysis"] : List String)) ∧
    (∀ jiraConfigured daysStale q1 q2 q3 q4 q5 q6,
      ∀ r ∈ detect_jira_risks jiraConfigured daysStale q1 q2 q3 q4 q5 q6,
        pyGet r "source" = .str "jira" ∧
        (r.find? (fun kv => kv.1 = "description")).isSome = true ∧
        r.find? (fun kv => kv.1 = "severity") = none ∧
        r.find? (fun kv => kv.1 = "id") = none ∧
        r.find? (fun kv => kv.1 = "meeting_id") = none) ∧
    (∀ params agentJira summaryRisks jiraRisks,
      includeJiraFlag (paramsOrEmpty params) agentJira && agentJira = true →
      pyGet (riskToolExecute params agentJira (.ok summaryRisks) (.ok jiraRisks))
          "risks" =
        .list ((summaryRisks ++ jiraRisks).map PyVal.dict)) := by
  refine ⟨?_, ?_, ?_⟩
  · intro meetingId summary tasks progress ids r hr
    simp only [detect] at hr
    refine withPlaceholder_shape meetingId ids _ ?_ r hr
    intro r2 hr2
    rcases List.mem_append.mp hr2 with hr1 | hrk
    · rcases List.mem_append.mp hr1 with hrb | hrt
      · rcases blockerRecs_shape meetingId ids _ 0 r2 hrb with ⟨idStr, desc, rfl⟩
        exact ⟨idStr, desc, "high", "summary", rfl, by simp, by simp⟩
      · rcases termRecs_shape _ _ _ r2 hrt with ⟨rfl⟩
        exact ⟨_, _, "medium", "summary", rfl, by simp, by simp⟩
    · rcases taskCountRecs_shape _ _ _ r2 hrk with ⟨rfl⟩
      exact ⟨_, _, "medium", "tasks", rfl, by simp, by simp⟩
  · intro jiraConfigured daysStale q1 q2 q3 q4 q5 q6 r hr
    unfold detect_jira_risks at hr
    by_cases hc : jiraConfigured = true
    case neg =>
      rw [if_pos (by simp [Bool.not_eq_true] at hc; simp [hc])] at hr
      cases hr
    case pos =>
      rw [if_neg (by simp [hc])] at hr
      rcases List.mem_append.mp hr with hr | h6
      rotate_left
      · cases q6 with
        | error e => cases h6
        | ok issues =>
          rcases List.mem_map.mp h6 with ⟨iss, _, rfl⟩
          exact ⟨rfl, rfl, rfl, rfl, rfl⟩
      rcases List.mem_append.mp hr with hr | h5
      rotate_left
      · cases q5 with
        | error e => cases h5
        | ok issues =>
          rcases List.mem_map.mp h5 with ⟨iss, _, rfl⟩
          exact ⟨rfl, rfl, rfl, rfl, rfl⟩
      rcases List.mem_append.mp hr with hr | h4
      rotate_left
      · cases q4 with
        | error e => cases h4
        | ok issues =>
          rcases List.mem_map.mp h4 with ⟨iss, _, rfl⟩
          exact ⟨rfl, rfl, rfl, rfl, rfl⟩
      rcases List.mem_append.mp hr with hr | h3
      rotate_left
      · cases q3 with
        | error e => cases h3
        | ok issues =>
          rcases List.mem_map.mp h3 with ⟨iss, _, rfl⟩
          exact ⟨rfl, rfl, rfl, rfl, rfl⟩
      rcases List.mem_append.mp hr with h1 | h2
      · cases q1 with
        | error e => cases h1
        | ok issues =>
          rcases List.mem_map.mp h1 with ⟨iss, _, rfl⟩
          exact ⟨rfl, rfl, rfl, rfl, rfl⟩
      · cases q2 with
        | error e => cases h2
        | ok issues =>
          rcases List.mem_map.mp h2 with ⟨iss, _, rfl⟩
          exact ⟨rfl, rfl, rfl, rfl, rfl⟩
  · intro params agentJira summaryRisks jiraRisks hj
    simp only [riskToolExecute]
    rw [if_pos (by simpa using hj)]
    rfl

/-- Witness applying the amended C9 at concrete inputs: the placeholder
record of an empty detection has the claimed five-field shape, and one
overdue Jira record has source `"jira"` and no severity. -/
theorem c9_amended_witness :
    (∃ idStr desc sev src,
      riskRec "risk_abcd1234" "m1" "No immediate risks detected." "low" "analysis" =
        riskRec idStr "m1" desc sev src ∧
      sev ∈ (["high", "medium", "low"] : List String) ∧
      src ∈ (["summary", "tasks", "analysis"] : List String)) ∧
    pyGet (riskToolExecute (some [("include_jira", .bool true)]) true
        (.ok []) (.ok [])) "risks" = .list [] := by
  constructor
  · have h := c9_amended.1 "m1" (.dict [] "") (.list []) .null (fun _ => "abcd1234")
      (riskRec "risk_abcd1234" "m1" "No immediate risks detected." "low" "analysis")
      (by rw [(rfl : detect "m1" (.dict [] "") (.list []) .null (fun _ => "abcd1234") =
          [riskRec "risk_abcd1234" "m1" "No immediate risks detected." "low" "analysis"])]
          exact List.mem_singleton.mpr rfl)
    exact h
  · have h := c9_amended.2.2 (some [("include_jira", .bool true)]) true [] []
      (by decide)
    simpa using h

end MeetingMcp
